import Mathlib

/-!
Shallow embedding of the saprobe ALAC decoder core (package `alac` plus the
`saprobe` bit-depth helpers), translated function-by-function from the Go
source: `types.go`, the magic-cookie parser (`ParseConfig`), the bit reader
(`bitbuffer.go`), the adaptive Golomb-Rice entropy decoder (`ag_dec` port),
the adaptive predictor (`predictor.go`), the matrix unmix / PCM packing
(`matrix.go`) and the per-packet element dispatch (`decoder.go`).

Machine integers are modelled as `Nat` (unsigned) and `Int` (signed) with
explicit wrap-around where Go wraps.  Go index panics are modelled as the
`Err.panicOOB` error; all fallible code returns `Except Err`.
-/

namespace Saprobe

/-! ### Go machine-arithmetic helpers (uint32 / uint16 / int32 / int16) -/

/-- Reduce to a Go `uint32` value. -/
def u32 (n : Nat) : Nat := n % 4294967296

/-- Go `uint32` subtraction `a - b` (wraps modulo 2^32). -/
def sub32 (a b : Nat) : Nat :=
  (a % 4294967296 + (4294967296 - b % 4294967296)) % 4294967296

/-- Go `uint32` left shift: any count `s ≥ 32` yields `0` (the `min` keeps the
exponent small; for `s ≥ 32` the result is `0` either way). -/
def shl32 (x s : Nat) : Nat := (x % 4294967296) * 2 ^ (min s 32) % 4294967296

/-- Go `uint32` right shift of a value `< 2^32`: any count `s ≥ 32` yields `0`. -/
def shr32 (x s : Nat) : Nat := x % 4294967296 / 2 ^ (min s 32)

/-- Go `uint16` subtraction (wraps modulo 2^16). -/
def sub16 (a b : Nat) : Nat := (a % 65536 + (65536 - b % 65536)) % 65536

/-- Go `uint16` left shift: any count `s ≥ 16` yields `0`. -/
def shl16 (x s : Nat) : Nat := (x % 65536) * 2 ^ (min s 16) % 65536

/-- Go `uint16` right shift of a value `< 2^16`. -/
def shr16 (x s : Nat) : Nat := x % 65536 / 2 ^ (min s 16)

/-- Two's-complement value of the low 32 bits (Go conversion to `int32`). -/
def toInt32 (x : Int) : Int := (x + 2147483648) % 4294967296 - 2147483648

/-- Two's-complement value of the low 16 bits (Go conversion to `int16`). -/
def toInt16 (x : Int) : Int := (x + 32768) % 65536 - 32768

/-- Bit pattern (as `uint32`) of an integer's low 32 bits. -/
def pat32 (x : Int) : Nat := (x % 4294967296).toNat

/-- Bit pattern (as `uint16`) of an integer's low 16 bits. -/
def pat16 (x : Int) : Nat := (x % 65536).toNat

/-- Go `int32` left shift (result truncated to 32 bits; counts `≥ 32` give 0). -/
def shlI32 (x : Int) (s : Nat) : Int := toInt32 (x * 2 ^ (min s 32))

/-- Go arithmetic right shift (floor division); for values in `int32` range every
count `≥ 32` gives the sign, so the exponent is capped at 32. -/
def sarI32 (x : Int) (s : Nat) : Int := Int.fdiv x (2 ^ (min s 32))

/-- Low byte of an unsigned value (Go `byte(v)`). -/
def lowByte (n : Nat) : Nat := n % 256

/-- Low byte of a signed value's two's-complement pattern (Go `byte(v)`). -/
def lowByteI (x : Int) : Nat := (x % 256).toNat

/-! ### Error kinds

The sentinel errors of the `alac` package (plus `errUnsupportedBitDepth` from
`types.go`).  `panicOOB` models a Go runtime panic (index out of range or an
unsupported-bit-depth `panic` call); `outOfFuel` is the (unreachable) bound on
the element-dispatch loop, which in Go terminates because every iteration
advances the bit cursor. -/

inductive Err where
  | invalidCookie
  | unsupportedVersion
  | unsupportedElement
  | invalidHeader
  | invalidShift
  | bitstreamOverrun
  | sampleOverrun
  | bitDepth
  | unsupportedBitDepth
  | panicOOB
  | outOfFuel
deriving DecidableEq, Repr

/-! ### types.go -/

/-- ToBitDepth converts a numeric bit depth to the BitDepth type (`types.go`). -/
def ToBitDepth (bps : Nat) : Except Err Nat :=
  match bps with
  | 4 => .ok 4
  | 8 => .ok 8
  | 12 => .ok 12
  | 16 => .ok 16
  | 20 => .ok 20
  | 24 => .ok 24
  | 32 => .ok 32
  | _ => .error .unsupportedBitDepth

/-- BytesPerSample (`types.go`); `none` models the `panic` on unsupported depths. -/
def BytesPerSample (d : Nat) : Option Nat :=
  match d with
  | 4 => some 1
  | 8 => some 1
  | 12 => some 2
  | 16 => some 2
  | 20 => some 3
  | 24 => some 3
  | 32 => some 4
  | _ => none

/-! ### Config and ParseConfig -/

/-- Config holds ALAC decoder configuration parsed from the magic cookie. -/
structure Config where
  frameLength : Nat
  bitDepth : Nat
  numChannels : Nat
  pb : Nat
  mb : Nat
  kb : Nat
  maxRun : Nat
  maxFrameBytes : Nat
  avgBitRate : Nat
  sampleRate : Nat
deriving DecidableEq, Repr

def configSize : Nat := 24

/-- Big-endian 32-bit read at a byte offset (guarded by length checks at use sites). -/
def be32 (l : List Nat) (i : Nat) : Nat :=
  l.getD i 0 <<< 24 ||| l.getD (i + 1) 0 <<< 16 ||| l.getD (i + 2) 0 <<< 8 ||| l.getD (i + 3) 0

/-- Big-endian 16-bit read at a byte offset. -/
def be16 (l : List Nat) (i : Nat) : Nat := l.getD i 0 <<< 8 ||| l.getD (i + 1) 0

/-- Wrapper stripping performed at the top of `ParseConfig`: skip a `frma` atom
and then an `alac` atom when present (byte values of `frma` are 102 114 109 97,
of `alac` are 97 108 97 99). -/
def stripAtoms (cookie : List Nat) : List Nat :=
  let data := cookie
  let data :=
    if 12 ≤ data.length ∧ data.getD 4 0 = 102 ∧ data.getD 5 0 = 114 ∧
        data.getD 6 0 = 109 ∧ data.getD 7 0 = 97 then
      data.drop 12
    else data
  if 12 ≤ data.length ∧ data.getD 4 0 = 97 ∧ data.getD 5 0 = 108 ∧
      data.getD 6 0 = 97 ∧ data.getD 7 0 = 99 then
    data.drop 12
  else data

/-- ParseConfig reads an ALACSpecificConfig from a magic cookie byte slice. -/
def ParseConfig (cookie : List Nat) : Except Err Config :=
  let data := stripAtoms cookie
  if data.length < configSize then .error .invalidCookie
  else if 0 < data.getD 4 0 then .error .unsupportedVersion
  else .ok
    { frameLength := be32 data 0
      bitDepth := data.getD 5 0
      pb := data.getD 6 0
      mb := data.getD 7 0
      kb := data.getD 8 0
      numChannels := data.getD 9 0
      maxRun := be16 data 10
      maxFrameBytes := be32 data 12
      avgBitRate := be32 data 16
      sampleRate := be32 data 20 }

/-! ### bitbuffer.go -/

/-- bitBuffer provides bit-level reading from a byte buffer (`bitbuffer.go`).
`buf` is the padded data, `size` the original (unpadded) byte count. -/
structure bitBuffer where
  buf : List Nat
  pos : Nat
  bitIdx : Nat
  size : Nat
deriving DecidableEq, Repr

def bitBufferPadding : Nat := 4

def newBitBuffer (data : List Nat) : bitBuffer :=
  { buf := data ++ List.replicate bitBufferPadding 0
    pos := 0
    bitIdx := 0
    size := data.length }

/-- Bounds-checked byte load; an out-of-range index is a Go panic. -/
def byteAt (l : List Nat) (i : Nat) : Except Err Nat :=
  if i < l.length then .ok (l.getD i 0) else .error .panicOOB

/-- read returns up to 16 bits right-aligned (BitBufferRead). -/
def bitBuffer.read (b : bitBuffer) (numBits : Nat) : Except Err (Nat × bitBuffer) := do
  let b0 ← byteAt b.buf b.pos
  let b1 ← byteAt b.buf (b.pos + 1)
  let b2 ← byteAt b.buf (b.pos + 2)
  let returnBits := shl32 (b0 <<< 16 ||| b1 <<< 8 ||| b2) b.bitIdx &&& 0xFFFFFF
  let returnBits := shr32 returnBits (sub32 24 numBits)
  let bi := u32 (b.bitIdx + numBits)
  .ok (returnBits, { b with pos := b.pos + (bi >>> 3), bitIdx := bi &&& 7 })

/-- readSmall reads up to 8 bits (BitBufferReadSmall); intermediate value is uint16. -/
def bitBuffer.readSmall (b : bitBuffer) (numBits : Nat) : Except Err (Nat × bitBuffer) := do
  let b0 ← byteAt b.buf b.pos
  let b1 ← byteAt b.buf (b.pos + 1)
  let returnBits := shl16 (b0 <<< 8 ||| b1) b.bitIdx
  let returnBits := shr16 returnBits (sub16 16 numBits)
  let bi := u32 (b.bitIdx + numBits)
  .ok (returnBits, { b with pos := b.pos + (bi >>> 3), bitIdx := bi &&& 7 })

/-- readOne reads a single bit. -/
def bitBuffer.readOne (b : bitBuffer) : Except Err (Nat × bitBuffer) := do
  let b0 ← byteAt b.buf b.pos
  let returnBit := b0 / 2 ^ (min (sub32 7 b.bitIdx) 8) &&& 1
  let bi := u32 (b.bitIdx + 1)
  .ok (returnBit, { b with pos := b.pos + (bi >>> 3), bitIdx := bi &&& 7 })

/-- advance skips forward by numBits bits. -/
def bitBuffer.advance (b : bitBuffer) (numBits : Nat) : bitBuffer :=
  let bi := u32 (b.bitIdx + numBits)
  { b with pos := b.pos + (bi >>> 3), bitIdx := bi &&& 7 }

/-- byteAlign advances to the next byte boundary (if not already aligned). -/
def bitBuffer.byteAlign (b : bitBuffer) : bitBuffer :=
  if b.bitIdx = 0 then b else b.advance (sub32 8 b.bitIdx)

/-- pastEnd is true once the read position reaches the original data end. -/
def bitBuffer.pastEnd (b : bitBuffer) : Bool := b.size ≤ b.pos

/-! ### Adaptive Golomb-Rice entropy decoder (ag_dec port) -/

def qbShift : Nat := 9
def quantBits : Nat := 512
def mmulShift : Nat := 2
def mdenShift : Nat := 6
def moff : Nat := 16
def bitoff : Nat := 24
def maxPrefix16 : Nat := 9
def maxPrefix32 : Nat := 9
def maxDatatype16 : Nat := 16
def nMaxMeanClamp : Nat := 0xffff
def nMeanClampVal : Nat := 0xffff

/-- Maximum zero-run length before resetting zmode (a fixed constant in the source). -/
def maxZeroRun : Nat := 65535

structure agParams where
  mb : Nat
  mb0 : Nat
  pb : Nat
  kb : Nat
  wb : Nat
  qb : Nat
  fw : Nat
  sw : Nat
  maxrun : Nat
deriving DecidableEq, Repr

/-- setAGParams initialises the adaptive-Golomb state (returns the struct the Go
code fills through a pointer). -/
def setAGParams (meanBase partBound kBase frameWin sampleWin maxrun : Nat) : agParams :=
  { mb := meanBase
    mb0 := meanBase
    pb := partBound
    kb := kBase
    wb := sub32 (shl32 1 kBase) 1
    qb := sub32 quantBits partBound
    fw := frameWin
    sw := sampleWin
    maxrun := maxrun }

/-- Halving loop computing a bit length; 32 iterations suffice for uint32
patterns (written with explicit fuel so that it evaluates by kernel reduction). -/
def lenAux : Nat → Nat → Nat
  | 0, _ => 0
  | fuel + 1, n => if n = 0 then 0 else lenAux fuel (n / 2) + 1

/-- Number of bits needed to represent a value (Go bits.Len32 on patterns < 2^32). -/
def len32 (x : Nat) : Nat := lenAux 32 x

/-- lead returns the number of leading zeros in a 32-bit pattern; 32 for input zero. -/
def lead (m : Nat) : Nat := if m = 0 then 32 else 32 - len32 m

/-- lg3a computes floor(log2(x+3)) as `31 - lead(x+3)`. -/
def lg3a (x : Nat) : Nat := 31 - lead (u32 (x + 3))

/-- read32bit reads 4 bytes big-endian from a byte slice at the given offset. -/
def read32bit (buf : List Nat) (offset : Nat) : Except Err Nat := do
  let b0 ← byteAt buf offset
  let b1 ← byteAt buf (offset + 1)
  let b2 ← byteAt buf (offset + 2)
  let b3 ← byteAt buf (offset + 3)
  .ok (b0 <<< 24 ||| b1 <<< 16 ||| b2 <<< 8 ||| b3)

/-- getStreamBits reads up to 32 bits from an arbitrary bit position. -/
def getStreamBits (input : List Nat) (bitOffset numBits : Nat) : Except Err Nat := do
  let byteOffset := bitOffset / 8
  let load1 ← read32bit input byteOffset
  if 32 < numBits + (bitOffset &&& 7) then
    let result := shl32 load1 (bitOffset &&& 7)
    let load2 ← byteAt input (byteOffset + 4)
    let load2shift := sub32 8 (numBits + (bitOffset &&& 7) - 32)
    let load2 := shr32 load2 load2shift
    let result := shr32 result (sub32 32 numBits)
    .ok (result ||| load2)
  else
    let result := shr32 load1 (sub32 (sub32 32 numBits) (bitOffset &&& 7))
    if numBits < 32 then .ok (result &&& (sub32 (shl32 1 numBits) 1))
    else .ok result

/-- dynGet decodes one Golomb-coded value (16-bit variant used for zero-run counts);
returns the value and the updated bit position. -/
def dynGet (input : List Nat) (bitPos golombM golombK : Nat) : Except Err (Nat × Nat) := do
  let tempBits := bitPos
  let streamLong ← read32bit input (tempBits >>> 3)
  let streamLong := shl32 streamLong (tempBits &&& 7)
  let pre := lead (4294967295 - streamLong)
  if maxPrefix16 ≤ pre then
    let tempBits := u32 (tempBits + maxPrefix16)
    let streamLong := shl32 streamLong maxPrefix16
    let result := streamLong >>> (32 - maxDatatype16)
    .ok (result, u32 (tempBits + maxDatatype16))
  else
    let tempBits := u32 (tempBits + pre + 1)
    let streamLong := shl32 streamLong (pre + 1)
    let val := shr32 streamLong (sub32 32 golombK)
    let tempBits := u32 (tempBits + golombK)
    if val < 2 then .ok (u32 (pre * golombM), sub32 tempBits 1)
    else .ok (u32 (pre * golombM + val - 1), tempBits)

/-- dynGet32Bit decodes one Golomb-coded value (32-bit variant used for residuals). -/
def dynGet32Bit (input : List Nat) (bitPos golombM golombK maxBits : Nat) :
    Except Err (Nat × Nat) := do
  let tempBits := bitPos
  let streamLong ← read32bit input (tempBits >>> 3)
  let streamLong := shl32 streamLong (tempBits &&& 7)
  let result := lead (4294967295 - streamLong)
  if maxPrefix32 ≤ result then
    let result ← getStreamBits input (u32 (tempBits + maxPrefix32)) maxBits
    .ok (result, u32 (tempBits + maxPrefix32 + maxBits))
  else
    let tempBits := u32 (tempBits + result + 1)
    if golombK ≠ 1 then
      let streamLong := shl32 streamLong (result + 1)
      let v := shr32 streamLong (sub32 32 golombK)
      if 2 ≤ v then .ok (u32 (result * golombM + v - 1), u32 (tempBits + golombK))
      else .ok (u32 (result * golombM), u32 (tempBits + sub32 golombK 1))
    else
      .ok (result, tempBits)

/-- Bounds-checked write into an int32 scratch array (Go index panic otherwise). -/
def setI (l : List Int) (i : Nat) (v : Int) : Except Err (List Int) :=
  if i < l.length then .ok (l.set i v) else .error .panicOOB

/-- Mutable state of the dynDecomp sample loop: bit position, running mean
accumulator, zero-run carry flag, produced-sample count and the residual array. -/
structure DynState where
  bitPos : Nat
  mb : Nat
  zmode : Nat
  count : Nat
  pc : List Int
deriving DecidableEq, Repr

/-- Rice parameter and divisor derivation at the head of each dynDecomp iteration:
`m := meanAccum >> qbShift; k := min(lg3a(m), kb); m := (1 << k) - 1`. -/
def dynKM (meanAccum kbLocal : Nat) : Nat × Nat :=
  let m := meanAccum >>> qbShift
  let k := min (lg3a m) kbLocal
  (k, sub32 (shl32 1 k) 1)

/-- Emit a run of zero residuals starting at `count` (the `for range residual` loop). -/
def writeZeros : Nat → Nat → List Int → Except Err (Nat × List Int)
  | 0, count, pc => .ok (count, pc)
  | n + 1, count, pc => do
    let pc ← setI pc count 0
    writeZeros n (count + 1) pc

/-- Zero-run sub-step of dynDecomp (the body of `if (meanAccum<<mmulShift) < quantBits
&& count < numSamples`): set the carry flag, decode a run length with the 16-bit
Golomb variant, emit that many zero residuals, clear the flag again only for runs
of at least `maxZeroRun`, and reset the mean accumulator to zero. -/
def dynZeroRun (wbLocal : Nat) (input : List Nat) (numSamples : Nat)
    (bitPos meanAccum count : Nat) (pc : List Int) : Except Err DynState := do
  let zmode : Nat := 1
  let k32 : Int :=
    max ((lead meanAccum : Int) - (bitoff : Nat) + ((u32 (meanAccum + moff)) >>> mdenShift : Nat)) 0
  let mz := sub32 (shl32 1 k32.toNat) 1 &&& wbLocal
  let (residual, bitPos) ← dynGet input bitPos mz k32.toNat
  if numSamples < count + residual then .error .sampleOverrun
  else do
    let (count, pc) ← writeZeros residual count pc
    let zmode := if maxZeroRun ≤ residual then 0 else zmode
    .ok ⟨bitPos, 0, zmode, count, pc⟩

/-- One iteration of the dynDecomp sample loop (decode a residual, recover its
sign, update the running mean, then possibly enter zero-run mode). -/
def dynDecompStep (params : agParams) (input : List Nat) (maxPos numSamples maxSize : Nat)
    (s : DynState) : Except Err DynState := do
  if maxPos ≤ s.bitPos then .error .bitstreamOverrun
  else do
    let (k, m) := dynKM s.mb params.kb
    let (residual, bitPos) ← dynGet32Bit input s.bitPos m k maxSize
    let ndecode := u32 (residual + s.zmode)
    let multiplier : Int := Int.lor (-(ndecode &&& 1 : Nat) : Int) 1
    let del : Int := toInt32 (toInt32 ((u32 (ndecode + 1) >>> 1 : Nat) : Int) * multiplier)
    let pc ← setI s.pc s.count del
    let count := s.count + 1
    let meanAccum :=
      u32 (params.pb * (residual + s.zmode) + s.mb +
        (4294967296 - shr32 (u32 (params.pb * s.mb)) qbShift))
    let meanAccum := if nMaxMeanClamp < residual then nMeanClampVal else meanAccum
    let zmode : Nat := 0
    if shl32 meanAccum mmulShift < quantBits ∧ count < numSamples then
      dynZeroRun params.wb input numSamples bitPos meanAccum count pc
    else
      .ok ⟨bitPos, meanAccum, zmode, count, pc⟩

/-- The dynDecomp `for count < numSamples` loop; every iteration produces at least
one sample, so the caller's `numSamples` is sufficient fuel. -/
def dynDecompLoop (params : agParams) (input : List Nat) (maxPos numSamples maxSize : Nat) :
    Nat → DynState → Except Err DynState
  | 0, s => if s.count < numSamples then .error .outOfFuel else .ok s
  | fuel + 1, s =>
    if s.count < numSamples then do
      let s' ← dynDecompStep params input maxPos numSamples maxSize s
      dynDecompLoop params input maxPos numSamples maxSize fuel s'
    else .ok s

/-- dynDecomp performs adaptive Golomb-Rice entropy decoding of a sample block,
returning the residual array and the advanced bit cursor. -/
def dynDecomp (params : agParams) (bitBuf : bitBuffer) (predCoefs : List Int)
    (numSamples maxSize : Nat) : Except Err (List Int × bitBuffer) := do
  let input := bitBuf.buf.drop bitBuf.pos
  let startPos := bitBuf.bitIdx
  let maxPos := u32 (bitBuf.size * 8)
  let s ← dynDecompLoop params input maxPos numSamples maxSize numSamples
    ⟨startPos, params.mb0, 0, 0, predCoefs⟩
  let bitsConsumed := sub32 s.bitPos startPos
  .ok (s.pc, bitBuf.advance bitsConsumed)

/-! ### Dynamic predictor (predictor.go) -/

/-- Bounds-checked read from an int32 scratch array. -/
def getI (l : List Int) (i : Nat) : Except Err Int :=
  if i < l.length then .ok (l.getD i 0) else .error .panicOOB

/-- signOfInt returns +1 for positive, -1 for negative, 0 for zero (computed
exactly as in the source, via an unsigned shift of the negated pattern). -/
def signOfInt (val : Int) : Int :=
  let negiShift : Int := ((pat32 (toInt32 (-val))) >>> 31 : Nat)
  Int.lor negiShift (sarI32 val 31)

/-- Warm-up phase of unpcBlock (`for j := 1; j <= int(numActive); j++`). -/
def warmup (pc1 : List Int) (chanShift : Nat) : Nat → Nat → List Int → Except Err (List Int)
  | 0, _, out => .ok out
  | r + 1, j, out => do
    let p ← getI pc1 j
    let prev ← getI out (j - 1)
    let del := toInt32 (p + prev)
    let out ← setI out j (sarI32 (shlI32 del chanShift) chanShift)
    warmup pc1 chanShift r (j + 1) out

/-- First-order delta decode used for the numActive == 31 sentinel. -/
def deltaDecode (pc1 : List Int) (chanShift : Nat) :
    Nat → Nat → Int → List Int → Except Err (List Int)
  | 0, _, _, out => .ok out
  | r + 1, j, prev, out => do
    let p ← getI pc1 j
    let del := toInt32 (p + prev)
    let prev := sarI32 (shlI32 del chanShift) chanShift
    let out ← setI out j prev
    deltaDecode pc1 chanShift r (j + 1) prev out

/-- The numActive == 0 `copy(out[1:num], pc1[1:num])`. -/
def copyRange (src : List Int) : Nat → Nat → List Int → Except Err (List Int)
  | 0, _, dst => .ok dst
  | r + 1, j, dst => do
    let v ← getI src j
    let dst ← setI dst j v
    copyRange src r (j + 1) dst

/-- Linear-prediction sum `sum1 += int32(coefs[k]) * (out[j-1-k] - top)`. -/
def predSum (coefs out : List Int) (j : Nat) (top : Int) :
    Nat → Nat → Int → Except Err Int
  | _, 0, sum1 => .ok sum1
  | k, r + 1, sum1 => do
    let c ← getI coefs k
    let ov ← getI out (j - 1 - k)
    let sum1 := toInt32 (sum1 + toInt32 (c * toInt32 (ov - top)))
    predSum coefs out j top (k + 1) r sum1

/-- Coefficient adaptation for a positive residual sign (general predictor):
walk `k` from numActive-1 down to 0, stop once `del0 <= 0`. -/
def adaptPos (out : List Int) (j na denShift : Nat) (top : Int) :
    Nat → List Int → Int → Except Err (List Int)
  | 0, coefs, _ => .ok coefs
  | k + 1, coefs, del0 => do
    let outv ← getI out (j - 1 - k)
    let dd := toInt32 (top - outv)
    let sgn := signOfInt dd
    let c ← getI coefs k
    let coefs ← setI coefs k (toInt16 (c - sgn))
    let del0 := toInt32 (del0 - toInt32 (((na - k : Nat) : Int) * sarI32 (toInt32 (sgn * dd)) denShift))
    if del0 ≤ 0 then .ok coefs
    else adaptPos out j na denShift top k coefs del0

/-- Coefficient adaptation for a negative residual sign (general predictor). -/
def adaptNeg (out : List Int) (j na denShift : Nat) (top : Int) :
    Nat → List Int → Int → Except Err (List Int)
  | 0, coefs, _ => .ok coefs
  | k + 1, coefs, del0 => do
    let outv ← getI out (j - 1 - k)
    let dd := toInt32 (top - outv)
    let sgn := signOfInt dd
    let c ← getI coefs k
    let coefs ← setI coefs k (toInt16 (c + sgn))
    let del0 := toInt32 (del0 - toInt32 (((na - k : Nat) : Int) * sarI32 (toInt32 (-sgn * dd)) denShift))
    if 0 ≤ del0 then .ok coefs
    else adaptNeg out j na denShift top k coefs del0

/-- Main loop of unpcBlockGeneral (`for j := lim; j < num; j++`). -/
def unpcGenLoop (pc1 : List Int) (na lim chanShift denShift : Nat) (denHalf : Int) :
    Nat → Nat → List Int → List Int → Except Err (List Int × List Int)
  | 0, _, out, coefs => .ok (out, coefs)
  | r + 1, j, out, coefs => do
    let top ← getI out (j - lim)
    let sum1 ← predSum coefs out j top 0 na 0
    let del ← getI pc1 j
    let del0 := del
    let sg := signOfInt del
    let del := toInt32 (del + top + sarI32 (toInt32 (sum1 + denHalf)) denShift)
    let out ← setI out j (sarI32 (shlI32 del chanShift) chanShift)
    let coefs ←
      if 0 < sg then adaptPos out j na denShift top na coefs del0
      else if sg < 0 then adaptNeg out j na denShift top na coefs del0
      else .ok coefs
    unpcGenLoop pc1 na lim chanShift denShift denHalf r (j + 1) out coefs

/-- unpcBlockGeneral is the general predictor for any numActive. -/
def unpcBlockGeneral (pc1 out : List Int) (num : Nat) (coefs : List Int)
    (na lim chanShift denShift : Nat) (denHalf : Int) : Except Err (List Int × List Int) :=
  unpcGenLoop pc1 na lim chanShift denShift denHalf (num - lim) lim out coefs

/-- Goto-chain of coefficient updates in unpcBlock4 (positive and negative sign). -/
def unpcB4Adapt (sg b0 b1 b2 b3 : Int) (denShift : Nat) (del0 a0 a1 a2 a3 : Int) :
    Int × Int × Int × Int :=
  if 0 < sg then
    let sgn := signOfInt b3
    let a3 := toInt32 (a3 - toInt16 sgn)
    let del0 := toInt32 (del0 - toInt32 (1 * sarI32 (toInt32 (sgn * b3)) denShift))
    if del0 ≤ 0 then (a0, a1, a2, a3)
    else
      let sgn := signOfInt b2
      let a2 := toInt32 (a2 - toInt16 sgn)
      let del0 := toInt32 (del0 - toInt32 (2 * sarI32 (toInt32 (sgn * b2)) denShift))
      if del0 ≤ 0 then (a0, a1, a2, a3)
      else
        let sgn := signOfInt b1
        let a1 := toInt32 (a1 - toInt16 sgn)
        let del0 := toInt32 (del0 - toInt32 (3 * sarI32 (toInt32 (sgn * b1)) denShift))
        if del0 ≤ 0 then (a0, a1, a2, a3)
        else (toInt32 (a0 - toInt16 (signOfInt b0)), a1, a2, a3)
  else if sg < 0 then
    let sgn := toInt32 (-(signOfInt b3))
    let a3 := toInt32 (a3 - toInt16 sgn)
    let del0 := toInt32 (del0 - toInt32 (1 * sarI32 (toInt32 (sgn * b3)) denShift))
    if 0 ≤ del0 then (a0, a1, a2, a3)
    else
      let sgn := toInt32 (-(signOfInt b2))
      let a2 := toInt32 (a2 - toInt16 sgn)
      let del0 := toInt32 (del0 - toInt32 (2 * sarI32 (toInt32 (sgn * b2)) denShift))
      if 0 ≤ del0 then (a0, a1, a2, a3)
      else
        let sgn := toInt32 (-(signOfInt b1))
        let a1 := toInt32 (a1 - toInt16 sgn)
        let del0 := toInt32 (del0 - toInt32 (3 * sarI32 (toInt32 (sgn * b1)) denShift))
        if 0 ≤ del0 then (a0, a1, a2, a3)
        else (toInt32 (a0 + toInt16 (signOfInt b0)), a1, a2, a3)
  else (a0, a1, a2, a3)

/-- Main loop of unpcBlock4. -/
def unpcB4Loop (pc1 : List Int) (chanShift denShift : Nat) (denHalf : Int) (lim : Nat) :
    Nat → Nat → List Int → Int × Int × Int × Int → Except Err (List Int × (Int × Int × Int × Int))
  | 0, _, out, acc => .ok (out, acc)
  | r + 1, j, out, (a0, a1, a2, a3) => do
    let top ← getI out (j - lim)
    let o1 ← getI out (j - 1)
    let o2 ← getI out (j - 2)
    let o3 ← getI out (j - 3)
    let o4 ← getI out (j - 4)
    let b0 := toInt32 (top - o1)
    let b1 := toInt32 (top - o2)
    let b2 := toInt32 (top - o3)
    let b3 := toInt32 (top - o4)
    let sum1 := sarI32 (toInt32 (denHalf - a0 * b0 - a1 * b1 - a2 * b2 - a3 * b3)) denShift
    let del ← getI pc1 j
    let del0 := del
    let sg := signOfInt del
    let del := toInt32 (del + top + sum1)
    let out ← setI out j (sarI32 (shlI32 del chanShift) chanShift)
    let acc := unpcB4Adapt sg b0 b1 b2 b3 denShift del0 a0 a1 a2 a3
    unpcB4Loop pc1 chanShift denShift denHalf lim r (j + 1) out acc

/-- unpcBlock4 is the optimized predictor for numActive == 4. -/
def unpcBlock4 (pc1 out : List Int) (num : Nat) (coefs : List Int)
    (lim chanShift denShift : Nat) (denHalf : Int) : Except Err (List Int × List Int) := do
  let a0 ← getI coefs 0
  let a1 ← getI coefs 1
  let a2 ← getI coefs 2
  let a3 ← getI coefs 3
  let (out, (a0, a1, a2, a3)) ←
    unpcB4Loop pc1 chanShift denShift denHalf lim (num - lim) lim out (a0, a1, a2, a3)
  let coefs ← setI coefs 0 (toInt16 a0)
  let coefs ← setI coefs 1 (toInt16 a1)
  let coefs ← setI coefs 2 (toInt16 a2)
  let coefs ← setI coefs 3 (toInt16 a3)
  .ok (out, coefs)

/-- Goto-chain of coefficient updates in unpcBlock8, positive-sign side; the
chain steps through b7..b1 with early exit, then updates a0 unconditionally. -/
def unpcB8AdaptPos (b0 b1 b2 b3 b4 b5 b6 b7 : Int) (denShift : Nat)
    (del0 a0 a1 a2 a3 a4 a5 a6 a7 : Int) :
    Int × Int × Int × Int × Int × Int × Int × Int :=
  let sgn := signOfInt b7
  let a7 := toInt32 (a7 - toInt16 sgn)
  let del0 := toInt32 (del0 - toInt32 (1 * sarI32 (toInt32 (sgn * b7)) denShift))
  if del0 ≤ 0 then (a0, a1, a2, a3, a4, a5, a6, a7)
  else
    let sgn := signOfInt b6
    let a6 := toInt32 (a6 - toInt16 sgn)
    let del0 := toInt32 (del0 - toInt32 (2 * sarI32 (toInt32 (sgn * b6)) denShift))
    if del0 ≤ 0 then (a0, a1, a2, a3, a4, a5, a6, a7)
    else
      let sgn := signOfInt b5
      let a5 := toInt32 (a5 - toInt16 sgn)
      let del0 := toInt32 (del0 - toInt32 (3 * sarI32 (toInt32 (sgn * b5)) denShift))
      if del0 ≤ 0 then (a0, a1, a2, a3, a4, a5, a6, a7)
      else
        let sgn := signOfInt b4
        let a4 := toInt32 (a4 - toInt16 sgn)
        let del0 := toInt32 (del0 - toInt32 (4 * sarI32 (toInt32 (sgn * b4)) denShift))
        if del0 ≤ 0 then (a0, a1, a2, a3, a4, a5, a6, a7)
        else
          let sgn := signOfInt b3
          let a3 := toInt32 (a3 - toInt16 sgn)
          let del0 := toInt32 (del0 - toInt32 (5 * sarI32 (toInt32 (sgn * b3)) denShift))
          if del0 ≤ 0 then (a0, a1, a2, a3, a4, a5, a6, a7)
          else
            let sgn := signOfInt b2
            let a2 := toInt32 (a2 - toInt16 sgn)
            let del0 := toInt32 (del0 - toInt32 (6 * sarI32 (toInt32 (sgn * b2)) denShift))
            if del0 ≤ 0 then (a0, a1, a2, a3, a4, a5, a6, a7)
            else
              let sgn := signOfInt b1
              let a1 := toInt32 (a1 - toInt16 sgn)
              let del0 := toInt32 (del0 - toInt32 (7 * sarI32 (toInt32 (sgn * b1)) denShift))
              if del0 ≤ 0 then (a0, a1, a2, a3, a4, a5, a6, a7)
              else (toInt32 (a0 - toInt16 (signOfInt b0)), a1, a2, a3, a4, a5, a6, a7)

/-- Goto-chain of coefficient updates in unpcBlock8, negative-sign side. -/
def unpcB8AdaptNeg (b0 b1 b2 b3 b4 b5 b6 b7 : Int) (denShift : Nat)
    (del0 a0 a1 a2 a3 a4 a5 a6 a7 : Int) :
    Int × Int × Int × Int × Int × Int × Int × Int :=
  let sgn := toInt32 (-(signOfInt b7))
  let a7 := toInt32 (a7 - toInt16 sgn)
  let del0 := toInt32 (del0 - toInt32 (1 * sarI32 (toInt32 (sgn * b7)) denShift))
  if 0 ≤ del0 then (a0, a1, a2, a3, a4, a5, a6, a7)
  else
    let sgn := toInt32 (-(signOfInt b6))
    let a6 := toInt32 (a6 - toInt16 sgn)
    let del0 := toInt32 (del0 - toInt32 (2 * sarI32 (toInt32 (sgn * b6)) denShift))
    if 0 ≤ del0 then (a0, a1, a2, a3, a4, a5, a6, a7)
    else
      let sgn := toInt32 (-(signOfInt b5))
      let a5 := toInt32 (a5 - toInt16 sgn)
      let del0 := toInt32 (del0 - toInt32 (3 * sarI32 (toInt32 (sgn * b5)) denShift))
      if 0 ≤ del0 then (a0, a1, a2, a3, a4, a5, a6, a7)
      else
        let sgn := toInt32 (-(signOfInt b4))
        let a4 := toInt32 (a4 - toInt16 sgn)
        let del0 := toInt32 (del0 - toInt32 (4 * sarI32 (toInt32 (sgn * b4)) denShift))
        if 0 ≤ del0 then (a0, a1, a2, a3, a4, a5, a6, a7)
        else
          let sgn := toInt32 (-(signOfInt b3))
          let a3 := toInt32 (a3 - toInt16 sgn)
          let del0 := toInt32 (del0 - toInt32 (5 * sarI32 (toInt32 (sgn * b3)) denShift))
          if 0 ≤ del0 then (a0, a1, a2, a3, a4, a5, a6, a7)
          else
            let sgn := toInt32 (-(signOfInt b2))
            let a2 := toInt32 (a2 - toInt16 sgn)
            let del0 := toInt32 (del0 - toInt32 (6 * sarI32 (toInt32 (sgn * b2)) denShift))
            if 0 ≤ del0 then (a0, a1, a2, a3, a4, a5, a6, a7)
            else
              let sgn := toInt32 (-(signOfInt b1))
              let a1 := toInt32 (a1 - toInt16 sgn)
              let del0 := toInt32 (del0 - toInt32 (7 * sarI32 (toInt32 (sgn * b1)) denShift))
              if 0 ≤ del0 then (a0, a1, a2, a3, a4, a5, a6, a7)
              else (toInt32 (a0 + toInt16 (signOfInt b0)), a1, a2, a3, a4, a5, a6, a7)

/-- Main loop of unpcBlock8. -/
def unpcB8Loop (pc1 : List Int) (chanShift denShift : Nat) (denHalf : Int) (lim : Nat) :
    Nat → Nat → List Int → Int × Int × Int × Int × Int × Int × Int × Int →
      Except Err (List Int × (Int × Int × Int × Int × Int × Int × Int × Int))
  | 0, _, out, acc => .ok (out, acc)
  | r + 1, j, out, (a0, a1, a2, a3, a4, a5, a6, a7) => do
    let top ← getI out (j - lim)
    let o1 ← getI out (j - 1)
    let o2 ← getI out (j - 2)
    let o3 ← getI out (j - 3)
    let o4 ← getI out (j - 4)
    let o5 ← getI out (j - 5)
    let o6 ← getI out (j - 6)
    let o7 ← getI out (j - 7)
    let o8 ← getI out (j - 8)
    let b0 := toInt32 (top - o1)
    let b1 := toInt32 (top - o2)
    let b2 := toInt32 (top - o3)
    let b3 := toInt32 (top - o4)
    let b4 := toInt32 (top - o5)
    let b5 := toInt32 (top - o6)
    let b6 := toInt32 (top - o7)
    let b7 := toInt32 (top - o8)
    let sum1 := sarI32
      (toInt32 (denHalf - a0 * b0 - a1 * b1 - a2 * b2 - a3 * b3 - a4 * b4 - a5 * b5 - a6 * b6 - a7 * b7))
      denShift
    let del ← getI pc1 j
    let del0 := del
    let sg := signOfInt del
    let del := toInt32 (del + top + sum1)
    let out ← setI out j (sarI32 (shlI32 del chanShift) chanShift)
    let acc :=
      if 0 < sg then unpcB8AdaptPos b0 b1 b2 b3 b4 b5 b6 b7 denShift del0 a0 a1 a2 a3 a4 a5 a6 a7
      else if sg < 0 then unpcB8AdaptNeg b0 b1 b2 b3 b4 b5 b6 b7 denShift del0 a0 a1 a2 a3 a4 a5 a6 a7
      else (a0, a1, a2, a3, a4, a5, a6, a7)
    unpcB8Loop pc1 chanShift denShift denHalf lim r (j + 1) out acc

/-- unpcBlock8 is the optimized predictor for numActive == 8. -/
def unpcBlock8 (pc1 out : List Int) (num : Nat) (coefs : List Int)
    (lim chanShift denShift : Nat) (denHalf : Int) : Except Err (List Int × List Int) := do
  let a0 ← getI coefs 0
  let a1 ← getI coefs 1
  let a2 ← getI coefs 2
  let a3 ← getI coefs 3
  let a4 ← getI coefs 4
  let a5 ← getI coefs 5
  let a6 ← getI coefs 6
  let a7 ← getI coefs 7
  let (out, (a0, a1, a2, a3, a4, a5, a6, a7)) ←
    unpcB8Loop pc1 chanShift denShift denHalf lim (num - lim) lim out
      (a0, a1, a2, a3, a4, a5, a6, a7)
  let coefs ← setI coefs 0 (toInt16 a0)
  let coefs ← setI coefs 1 (toInt16 a1)
  let coefs ← setI coefs 2 (toInt16 a2)
  let coefs ← setI coefs 3 (toInt16 a3)
  let coefs ← setI coefs 4 (toInt16 a4)
  let coefs ← setI coefs 5 (toInt16 a5)
  let coefs ← setI coefs 6 (toInt16 a6)
  let coefs ← setI coefs 7 (toInt16 a7)
  .ok (out, coefs)

/-- unpcBlock reverses the linear prediction encoding.  Returns the updated
output and coefficient arrays (the Go code mutates both through slices).  The
`numActive == 0` copy is performed unconditionally here, which coincides with
the source for both the aliased and the non-aliased case. -/
def unpcBlock (pc1 out : List Int) (num : Nat) (coefs : List Int) (numActive : Int)
    (chanBits denShift : Nat) : Except Err (List Int × List Int) := do
  let chanShift := sub32 32 chanBits
  let denHalf : Int := if 0 < denShift then shlI32 1 (denShift - 1) else 0
  let p0 ← getI pc1 0
  let out ← setI out 0 p0
  if numActive = 0 then do
    let out ← if 1 < num then copyRange pc1 (num - 1) 1 out else .ok out
    .ok (out, coefs)
  else if numActive = 31 then do
    let prev := p0
    let out ← deltaDecode pc1 chanShift (num - 1) 1 prev out
    .ok (out, coefs)
  else do
    let out ← warmup pc1 chanShift numActive.toNat 1 out
    let lim := numActive.toNat + 1
    if numActive = 4 then unpcBlock4 pc1 out num coefs lim chanShift denShift denHalf
    else if numActive = 8 then unpcBlock8 pc1 out num coefs lim chanShift denShift denHalf
    else unpcBlockGeneral pc1 out num coefs numActive.toNat lim chanShift denShift denHalf

/-! ### Matrix unmix and output byte formatting (matrix.go) -/

/-- Bounds-checked write into the output byte slice. -/
def setByte (l : List Nat) (i v : Nat) : Except Err (List Nat) :=
  if i < l.length then .ok (l.set i v) else .error .panicOOB

/-- binary.LittleEndian.PutUint16. -/
def putUint16LE (out : List Nat) (pos v : Nat) : Except Err (List Nat) := do
  let out ← setByte out pos (lowByte v)
  setByte out (pos + 1) (lowByte (v >>> 8))

/-- binary.LittleEndian.PutUint32. -/
def putUint32LE (out : List Nat) (pos v : Nat) : Except Err (List Nat) := do
  let out ← setByte out pos (lowByte v)
  let out ← setByte out (pos + 1) (lowByte (v >>> 8))
  let out ← setByte out (pos + 2) (lowByte (v >>> 16))
  setByte out (pos + 3) (lowByte (v >>> 24))

/-- writeStereo16, decorrelated branch (`mixRes != 0`). -/
def ws16LoopA (u v : List Int) (offset stride : Nat) (mixBits mixRes : Int) :
    Nat → Nat → List Nat → Except Err (List Nat)
  | 0, _, out => .ok out
  | r + 1, i, out => do
    let ui ← getI u i
    let vi ← getI v i
    let l := toInt32 (ui + vi - sarI32 (toInt32 (mixRes * vi)) mixBits.toNat)
    let rr := toInt32 (l - vi)
    let pos := offset + i * stride
    let out ← putUint16LE out pos (pat16 l)
    let out ← putUint16LE out (pos + 2) (pat16 rr)
    ws16LoopA u v offset stride mixBits mixRes r (i + 1) out

/-- writeStereo16, pass-through branch (`mixRes == 0`). -/
def ws16LoopB (u v : List Int) (offset stride : Nat) :
    Nat → Nat → List Nat → Except Err (List Nat)
  | 0, _, out => .ok out
  | r + 1, i, out => do
    let ui ← getI u i
    let vi ← getI v i
    let pos := offset + i * stride
    let out ← putUint16LE out pos (pat16 ui)
    let out ← putUint16LE out (pos + 2) (pat16 vi)
    ws16LoopB u v offset stride r (i + 1) out

def writeStereo16 (out : List Nat) (u v : List Int) (chanIdx numChan numSamples : Nat)
    (mixBits mixRes : Int) : Except Err (List Nat) :=
  let stride := numChan * 2
  let offset := chanIdx * 2
  if mixRes ≠ 0 then ws16LoopA u v offset stride mixBits mixRes numSamples 0 out
  else ws16LoopB u v offset stride numSamples 0 out

/-- Write a 3-byte little-endian field from an int32 value. -/
def put3LE (out : List Nat) (pos : Nat) (x : Int) : Except Err (List Nat) := do
  let out ← setByte out pos (lowByteI x)
  let out ← setByte out (pos + 1) (lowByteI (sarI32 x 8))
  setByte out (pos + 2) (lowByteI (sarI32 x 16))

/-- writeStereo20, decorrelated branch. -/
def ws20LoopA (u v : List Int) (offset stride : Nat) (mixBits mixRes : Int) :
    Nat → Nat → List Nat → Except Err (List Nat)
  | 0, _, out => .ok out
  | r + 1, i, out => do
    let ui ← getI u i
    let vi ← getI v i
    let l := toInt32 (ui + vi - sarI32 (toInt32 (mixRes * vi)) mixBits.toNat)
    let rr := toInt32 (l - vi)
    let l := shlI32 l 4
    let rr := shlI32 rr 4
    let pos := offset + i * stride
    let out ← put3LE out pos l
    let out ← put3LE out (pos + 3) rr
    ws20LoopA u v offset stride mixBits mixRes r (i + 1) out

/-- writeStereo20, pass-through branch. -/
def ws20LoopB (u v : List Int) (offset stride : Nat) :
    Nat → Nat → List Nat → Except Err (List Nat)
  | 0, _, out => .ok out
  | r + 1, i, out => do
    let ui ← getI u i
    let vi ← getI v i
    let pos := offset + i * stride
    let out ← put3LE out pos (shlI32 ui 4)
    let out ← put3LE out (pos + 3) (shlI32 vi 4)
    ws20LoopB u v offset stride r (i + 1) out

def writeStereo20 (out : List Nat) (u v : List Int) (chanIdx numChan numSamples : Nat)
    (mixBits mixRes : Int) : Except Err (List Nat) :=
  let stride := numChan * 3
  let offset := chanIdx * 3
  if mixRes ≠ 0 then ws20LoopA u v offset stride mixBits mixRes numSamples 0 out
  else ws20LoopB u v offset stride numSamples 0 out

/-- writeStereo24, decorrelated branch (with optional shift-bits reinjection). -/
def ws24LoopA (u v : List Int) (offset stride : Nat) (mixBits mixRes : Int)
    (shiftBuf : List Nat) (bytesShifted shift : Nat) :
    Nat → Nat → List Nat → Except Err (List Nat)
  | 0, _, out => .ok out
  | r + 1, i, out => do
    let ui ← getI u i
    let vi ← getI v i
    let l := toInt32 (ui + vi - sarI32 (toInt32 (mixRes * vi)) mixBits.toNat)
    let rr := toInt32 (l - vi)
    let (l, rr) ←
      if bytesShifted ≠ 0 then do
        let s0 ← byteAt shiftBuf (i * 2)
        let s1 ← byteAt shiftBuf (i * 2 + 1)
        pure (Int.lor (shlI32 l shift) (s0 : Int), Int.lor (shlI32 rr shift) (s1 : Int))
      else pure (l, rr)
    let pos := offset + i * stride
    let out ← put3LE out pos l
    let out ← put3LE out (pos + 3) rr
    ws24LoopA u v offset stride mixBits mixRes shiftBuf bytesShifted shift r (i + 1) out

/-- writeStereo24, pass-through branch. -/
def ws24LoopB (u v : List Int) (offset stride : Nat)
    (shiftBuf : List Nat) (bytesShifted shift : Nat) :
    Nat → Nat → List Nat → Except Err (List Nat)
  | 0, _, out => .ok out
  | r + 1, i, out => do
    let ui ← getI u i
    let vi ← getI v i
    let (l, rr) ←
      if bytesShifted ≠ 0 then do
        let s0 ← byteAt shiftBuf (i * 2)
        let s1 ← byteAt shiftBuf (i * 2 + 1)
        pure (Int.lor (shlI32 ui shift) (s0 : Int), Int.lor (shlI32 vi shift) (s1 : Int))
      else pure (ui, vi)
    let pos := offset + i * stride
    let out ← put3LE out pos l
    let out ← put3LE out (pos + 3) rr
    ws24LoopB u v offset stride shiftBuf bytesShifted shift r (i + 1) out

def writeStereo24 (out : List Nat) (u v : List Int) (chanIdx numChan numSamples : Nat)
    (mixBits mixRes : Int) (shiftBuf : List Nat) (bytesShifted : Nat) :
    Except Err (List Nat) :=
  let stride := numChan * 3
  let offset := chanIdx * 3
  let shift := bytesShifted * 8
  if mixRes ≠ 0 then
    ws24LoopA u v offset stride mixBits mixRes shiftBuf bytesShifted shift numSamples 0 out
  else ws24LoopB u v offset stride shiftBuf bytesShifted shift numSamples 0 out

/-- writeStereo32, decorrelated branch. -/
def ws32LoopA (u v : List Int) (offset stride : Nat) (mixBits mixRes : Int)
    (shiftBuf : List Nat) (bytesShifted shift : Nat) :
    Nat → Nat → List Nat → Except Err (List Nat)
  | 0, _, out => .ok out
  | r + 1, i, out => do
    let ui ← getI u i
    let vi ← getI v i
    let l := toInt32 (ui + vi - sarI32 (toInt32 (mixRes * vi)) mixBits.toNat)
    let rr := toInt32 (l - vi)
    let (l, rr) ←
      if bytesShifted ≠ 0 then do
        let s0 ← byteAt shiftBuf (i * 2)
        let s1 ← byteAt shiftBuf (i * 2 + 1)
        pure (Int.lor (shlI32 l shift) (s0 : Int), Int.lor (shlI32 rr shift) (s1 : Int))
      else pure (l, rr)
    let pos := offset + i * stride
    let out ← putUint32LE out pos (pat32 l)
    let out ← putUint32LE out (pos + 4) (pat32 rr)
    ws32LoopA u v offset stride mixBits mixRes shiftBuf bytesShifted shift r (i + 1) out

/-- writeStereo32, pass-through branch. -/
def ws32LoopB (u v : List Int) (offset stride : Nat)
    (shiftBuf : List Nat) (bytesShifted shift : Nat) :
    Nat → Nat → List Nat → Except Err (List Nat)
  | 0, _, out => .ok out
  | r + 1, i, out => do
    let ui ← getI u i
    let vi ← getI v i
    let (l, rr) ←
      if bytesShifted ≠ 0 then do
        let s0 ← byteAt shiftBuf (i * 2)
        let s1 ← byteAt shiftBuf (i * 2 + 1)
        pure (Int.lor (shlI32 ui shift) (s0 : Int), Int.lor (shlI32 vi shift) (s1 : Int))
      else pure (ui, vi)
    let pos := offset + i * stride
    let out ← putUint32LE out pos (pat32 l)
    let out ← putUint32LE out (pos + 4) (pat32 rr)
    ws32LoopB u v offset stride shiftBuf bytesShifted shift r (i + 1) out

def writeStereo32 (out : List Nat) (u v : List Int) (chanIdx numChan numSamples : Nat)
    (mixBits mixRes : Int) (shiftBuf : List Nat) (bytesShifted : Nat) :
    Except Err (List Nat) :=
  let stride := numChan * 4
  let offset := chanIdx * 4
  let shift := bytesShifted * 8
  if mixRes ≠ 0 then
    ws32LoopA u v offset stride mixBits mixRes shiftBuf bytesShifted shift numSamples 0 out
  else ws32LoopB u v offset stride shiftBuf bytesShifted shift numSamples 0 out

/-- writeMono16 loop. -/
def wm16Loop (u : List Int) (offset stride : Nat) :
    Nat → Nat → List Nat → Except Err (List Nat)
  | 0, _, out => .ok out
  | r + 1, i, out => do
    let ui ← getI u i
    let out ← putUint16LE out (offset + i * stride) (pat16 ui)
    wm16Loop u offset stride r (i + 1) out

def writeMono16 (out : List Nat) (u : List Int) (chanIdx numChan numSamples : Nat) :
    Except Err (List Nat) :=
  wm16Loop u (chanIdx * 2) (numChan * 2) numSamples 0 out

/-- writeMono20 loop. -/
def wm20Loop (u : List Int) (offset stride : Nat) :
    Nat → Nat → List Nat → Except Err (List Nat)
  | 0, _, out => .ok out
  | r + 1, i, out => do
    let ui ← getI u i
    let out ← put3LE out (offset + i * stride) (shlI32 ui 4)
    wm20Loop u offset stride r (i + 1) out

def writeMono20 (out : List Nat) (u : List Int) (chanIdx numChan numSamples : Nat) :
    Except Err (List Nat) :=
  wm20Loop u (chanIdx * 3) (numChan * 3) numSamples 0 out

/-- writeMono24 loop (with optional shift-bits reinjection). -/
def wm24Loop (u : List Int) (offset stride : Nat) (shiftBuf : List Nat)
    (bytesShifted shift : Nat) : Nat → Nat → List Nat → Except Err (List Nat)
  | 0, _, out => .ok out
  | r + 1, i, out => do
    let ui ← getI u i
    let val ←
      if bytesShifted ≠ 0 then do
        let s0 ← byteAt shiftBuf i
        pure (Int.lor (shlI32 ui shift) (s0 : Int))
      else pure ui
    let out ← put3LE out (offset + i * stride) val
    wm24Loop u offset stride shiftBuf bytesShifted shift r (i + 1) out

def writeMono24 (out : List Nat) (u : List Int) (chanIdx numChan numSamples : Nat)
    (shiftBuf : List Nat) (bytesShifted : Nat) : Except Err (List Nat) :=
  wm24Loop u (chanIdx * 3) (numChan * 3) shiftBuf bytesShifted (bytesShifted * 8) numSamples 0 out

/-- writeMono32 loop. -/
def wm32Loop (u : List Int) (offset stride : Nat) (shiftBuf : List Nat)
    (bytesShifted shift : Nat) : Nat → Nat → List Nat → Except Err (List Nat)
  | 0, _, out => .ok out
  | r + 1, i, out => do
    let ui ← getI u i
    let val ←
      if bytesShifted ≠ 0 then do
        let s0 ← byteAt shiftBuf i
        pure (Int.lor (shlI32 ui shift) (s0 : Int))
      else pure ui
    let out ← putUint32LE out (offset + i * stride) (pat32 val)
    wm32Loop u offset stride shiftBuf bytesShifted shift r (i + 1) out

def writeMono32 (out : List Nat) (u : List Int) (chanIdx numChan numSamples : Nat)
    (shiftBuf : List Nat) (bytesShifted : Nat) : Except Err (List Nat) :=
  wm32Loop u (chanIdx * 4) (numChan * 4) shiftBuf bytesShifted (bytesShifted * 8) numSamples 0 out

/-! ### Decoder and element dispatch (decoder.go)

The Go decoder owns scratch buffers (`mixBufferU`, `mixBufferV`, `predictor`,
`shiftBuffer`) sized from `Config.FrameLength` at construction and reused
across packets; every cell read during a decode is written earlier in the same
element decode, so allocating them fresh (zero-filled, same lengths) at each
use is observationally identical and is how they are modelled here. -/

def elemSCE : Nat := 0
def elemCPE : Nat := 1
def elemCCE : Nat := 2
def elemLFE : Nat := 3
def elemDSE : Nat := 4
def elemPCE : Nat := 5
def elemFIL : Nat := 6
def elemEND : Nat := 7

def maxCoefs : Nat := 32

/-- Special numActive value that triggers first-order delta decode mode. -/
def numActiveDelta : Int := 31

/-- Unused header field size in SCE/CPE. -/
def unusedHeaderBits : Nat := 12

/-- Two's-complement value of the low 8 bits (Go conversion to `int8`). -/
def toInt8 (x : Int) : Int := (x + 128) % 256 - 128

/-- PCMFormat describes the format of raw PCM audio data (`types.go`). -/
structure PCMFormat where
  sampleRate : Nat
  bitDepth : Nat
  channels : Nat
deriving DecidableEq, Repr

/-- Decoder decodes ALAC audio packets into interleaved LE signed PCM. -/
structure Decoder where
  config : Config
  format : PCMFormat
deriving DecidableEq, Repr

/-- NewDecoder creates a new ALAC decoder from the given configuration; the Go
error wraps `errBitDepth` (and `errUnsupportedBitDepth`), modelled as
`Err.bitDepth`. -/
def NewDecoder (config : Config) : Except Err Decoder :=
  match ToBitDepth config.bitDepth with
  | .error _ => .error .bitDepth
  | .ok bitDepth =>
    .ok
      { config := config
        format :=
          { sampleRate := config.sampleRate
            bitDepth := bitDepth
            channels := config.numChannels } }

/-- Format returns the PCM output format. -/
def Decoder.Format (d : Decoder) : PCMFormat := d.format

/-- Coefficient reads `coefs[i] = int16(bits.read(16))` for `i` in `range num`. -/
def readCoefsLoop : Nat → Nat → List Int → bitBuffer → Except Err (List Int × bitBuffer)
  | 0, _, coefs, bits => .ok (coefs, bits)
  | r + 1, i, coefs, bits => do
    let (v, bits) ← bits.read 16
    let coefs ← setI coefs i (toInt16 (v : Int))
    readCoefsLoop r (i + 1) coefs bits

/-- Shift-bits reads for a mono element: `shiftBuffer[i] = uint16(shiftBits.read(shift))`. -/
def readShiftSCE (shift : Nat) : Nat → Nat → List Nat → bitBuffer → Except Err (List Nat × bitBuffer)
  | 0, _, sb, bits => .ok (sb, bits)
  | r + 1, i, sb, bits => do
    let (v, bits) ← bits.read shift
    let sb ← setByte sb i (v % 65536)
    readShiftSCE shift r (i + 1) sb bits

/-- Shift-bits reads for a channel pair (interleaved, two per sample). -/
def readShiftCPE (shift : Nat) : Nat → Nat → List Nat → bitBuffer → Except Err (List Nat × bitBuffer)
  | 0, _, sb, bits => .ok (sb, bits)
  | r + 1, i, sb, bits => do
    let (v0, bits) ← bits.read shift
    let sb ← setByte sb (i + 0) (v0 % 65536)
    let (v1, bits) ← bits.read shift
    let sb ← setByte sb (i + 1) (v1 % 65536)
    readShiftCPE shift r (i + 2) sb bits

/-- Escape-path raw sample reads for one channel, `chanBits <= 16` case. -/
def escLoop16 (chanBits shift : Nat) : Nat → Nat → List Int → bitBuffer →
    Except Err (List Int × bitBuffer)
  | 0, _, mixU, bits => .ok (mixU, bits)
  | r + 1, idx, mixU, bits => do
    let (v, bits) ← bits.read chanBits
    let val := sarI32 (shlI32 (toInt32 (v : Int)) shift) shift
    let mixU ← setI mixU idx val
    escLoop16 chanBits shift r (idx + 1) mixU bits

/-- Escape-path raw sample reads for one channel, `chanBits > 16` case. -/
def escLoopHi (extraBits shift : Nat) : Nat → Nat → List Int → bitBuffer →
    Except Err (List Int × bitBuffer)
  | 0, _, mixU, bits => .ok (mixU, bits)
  | r + 1, idx, mixU, bits => do
    let (v1, bits) ← bits.read 16
    let val := sarI32 (shlI32 (toInt32 (v1 : Int)) 16) shift
    let (v2, bits) ← bits.read extraBits
    let mixU ← setI mixU idx (Int.lor val (toInt32 (v2 : Int)))
    escLoopHi extraBits shift r (idx + 1) mixU bits

/-- decodeSCEEscape fills the mono mix buffer with raw sign-extended reads. -/
def decodeSCEEscape (bits : bitBuffer) (mixU : List Int) (chanBits numSamples : Nat) :
    Except Err (List Int × bitBuffer) :=
  let shift := sub32 32 chanBits
  if chanBits ≤ 16 then escLoop16 chanBits shift numSamples 0 mixU bits
  else escLoopHi (chanBits - 16) shift numSamples 0 mixU bits

/-- Escape-path raw sample reads for a channel pair, `chanBits <= 16` case. -/
def escPairLoop16 (chanBits shift : Nat) : Nat → Nat → List Int → List Int → bitBuffer →
    Except Err (List Int × List Int × bitBuffer)
  | 0, _, mixU, mixV, bits => .ok (mixU, mixV, bits)
  | r + 1, idx, mixU, mixV, bits => do
    let (v, bits) ← bits.read chanBits
    let val := sarI32 (shlI32 (toInt32 (v : Int)) shift) shift
    let mixU ← setI mixU idx val
    let (v, bits) ← bits.read chanBits
    let val := sarI32 (shlI32 (toInt32 (v : Int)) shift) shift
    let mixV ← setI mixV idx val
    escPairLoop16 chanBits shift r (idx + 1) mixU mixV bits

/-- Escape-path raw sample reads for a channel pair, `chanBits > 16` case. -/
def escPairLoopHi (extraBits shift : Nat) : Nat → Nat → List Int → List Int → bitBuffer →
    Except Err (List Int × List Int × bitBuffer)
  | 0, _, mixU, mixV, bits => .ok (mixU, mixV, bits)
  | r + 1, idx, mixU, mixV, bits => do
    let (v1, bits) ← bits.read 16
    let val := sarI32 (shlI32 (toInt32 (v1 : Int)) 16) shift
    let (v2, bits) ← bits.read extraBits
    let mixU ← setI mixU idx (Int.lor val (toInt32 (v2 : Int)))
    let (v1, bits) ← bits.read 16
    let val := sarI32 (shlI32 (toInt32 (v1 : Int)) 16) shift
    let (v2, bits) ← bits.read extraBits
    let mixV ← setI mixV idx (Int.lor val (toInt32 (v2 : Int)))
    escPairLoopHi extraBits shift r (idx + 1) mixU mixV bits

/-- decodeCPEEscape fills both mix buffers with raw sign-extended reads. -/
def decodeCPEEscape (bits : bitBuffer) (mixU mixV : List Int) (chanBits numSamples : Nat) :
    Except Err (List Int × List Int × bitBuffer) :=
  let shift := sub32 32 chanBits
  if chanBits ≤ 16 then escPairLoop16 chanBits shift numSamples 0 mixU mixV bits
  else escPairLoopHi (chanBits - 16) shift numSamples 0 mixU mixV bits

/-- decodeSCECompressed: the compressed path of a mono element, returning the
mono mix buffer, the shift-bits buffer and the advanced cursor. -/
def decodeSCECompressed (cfg : Config) (bits : bitBuffer) (chanBits bytesShifted numSamples : Nat) :
    Except Err (List Int × List Nat × bitBuffer) := do
  let frameLen := cfg.frameLength
  let predictor : List Int := List.replicate frameLen 0
  let mixBufferU : List Int := List.replicate frameLen 0
  let shiftBuffer : List Nat := List.replicate (frameLen * 2) 0
  let (_, bits) ← bits.read 8
  let (_, bits) ← bits.read 8
  let (headerByte, bits) ← bits.read 8
  let modeU := headerByte >>> 4
  let denShiftU := headerByte &&& 0xf
  let (headerByte, bits) ← bits.read 8
  let pbFactorU := headerByte >>> 5
  let numU := headerByte &&& 0x1f
  let coefsU : List Int := List.replicate maxCoefs 0
  let (coefsU, bits) ← readCoefsLoop numU 0 coefsU bits
  let shiftBits := bits
  let bits :=
    if bytesShifted ≠ 0 then bits.advance (u32 (bytesShifted * 8 * numSamples)) else bits
  let predBound := cfg.pb
  let agP := setAGParams cfg.mb (predBound * pbFactorU / 4) cfg.kb numSamples numSamples cfg.maxRun
  let (predictor, bits) ← dynDecomp agP bits predictor numSamples chanBits
  let (predictor, _) ←
    if modeU ≠ 0 then unpcBlock predictor predictor numSamples [] numActiveDelta chanBits 0
    else .ok (predictor, ([] : List Int))
  let (mixBufferU, _) ←
    unpcBlock predictor mixBufferU numSamples (coefsU.take numU) (numU : Int) chanBits denShiftU
  let (shiftBuffer, _) ←
    if bytesShifted ≠ 0 then readShiftSCE (bytesShifted * 8) numSamples 0 shiftBuffer shiftBits
    else .ok (shiftBuffer, shiftBits)
  .ok (mixBufferU, shiftBuffer, bits)

/-- decodeSCE decodes a Single Channel Element (mono) or LFE element, writing
its PCM into `output`; returns the (possibly overridden) sample count, the
advanced cursor and the updated output. -/
def decodeSCE (cfg : Config) (bits : bitBuffer) (output : List Nat)
    (chanIdx numChan numSamples : Nat) : Except Err (Nat × bitBuffer × List Nat) := do
  let (_, bits) ← bits.readSmall 4
  let (unusedHeader, bits) ← bits.read unusedHeaderBits
  if unusedHeader ≠ 0 then .error .invalidHeader
  else do
    let (headerByte, bits) ← bits.read 4
    let partialFrame := headerByte >>> 3
    let bytesShifted := (headerByte >>> 1) &&& 0x3
    if bytesShifted = 3 then .error .invalidShift
    else do
      let escapeFlag := headerByte &&& 0x1
      let chanBits := sub32 cfg.bitDepth (bytesShifted * 8)
      let (numSamples, bits) ←
        if partialFrame ≠ 0 then do
          let (hi, bits) ← bits.read 16
          let (lo, bits) ← bits.read 16
          pure (shl32 hi 16 ||| lo, bits)
        else pure (numSamples, bits)
      let (mixBufferU, shiftBuffer, bytesShifted, bits) ←
        if escapeFlag = 0 then do
          let (mixU, sb, bits) ← decodeSCECompressed cfg bits chanBits bytesShifted numSamples
          pure (mixU, sb, bytesShifted, bits)
        else do
          let mixU : List Int := List.replicate cfg.frameLength 0
          let (mixU, bits) ← decodeSCEEscape bits mixU chanBits numSamples
          pure (mixU, List.replicate (cfg.frameLength * 2) 0, 0, bits)
      let sampleCount := numSamples
      let output ←
        if cfg.bitDepth = 16 then writeMono16 output mixBufferU chanIdx numChan sampleCount
        else if cfg.bitDepth = 20 then writeMono20 output mixBufferU chanIdx numChan sampleCount
        else if cfg.bitDepth = 24 then
          writeMono24 output mixBufferU chanIdx numChan sampleCount shiftBuffer bytesShifted
        else if cfg.bitDepth = 32 then
          writeMono32 output mixBufferU chanIdx numChan sampleCount shiftBuffer bytesShifted
        else .error .panicOOB
      .ok (numSamples, bits, output)

/-- decodeCPECompressed: the compressed path of a channel-pair element,
returning mixBits, mixRes, both mix buffers, the shift-bits buffer and cursor. -/
def decodeCPECompressed (cfg : Config) (bits : bitBuffer) (chanBits bytesShifted numSamples : Nat) :
    Except Err (Int × Int × List Int × List Int × List Nat × bitBuffer) := do
  let frameLen := cfg.frameLength
  let mixBufferU : List Int := List.replicate frameLen 0
  let mixBufferV : List Int := List.replicate frameLen 0
  let shiftBuffer : List Nat := List.replicate (frameLen * 2) 0
  let (mb8, bits) ← bits.read 8
  let mixBits : Int := (mb8 : Int)
  let (mr8, bits) ← bits.read 8
  let mixRes : Int := toInt8 (mr8 : Int)
  let (headerByte, bits) ← bits.read 8
  let modeU := headerByte >>> 4
  let denShiftU := headerByte &&& 0xf
  let (headerByte, bits) ← bits.read 8
  let pbFactorU := headerByte >>> 5
  let numU := headerByte &&& 0x1f
  let coefsU : List Int := List.replicate maxCoefs 0
  let (coefsU, bits) ← readCoefsLoop numU 0 coefsU bits
  let (headerByte, bits) ← bits.read 8
  let modeV := headerByte >>> 4
  let denShiftV := headerByte &&& 0xf
  let (headerByte, bits) ← bits.read 8
  let pbFactorV := headerByte >>> 5
  let numV := headerByte &&& 0x1f
  let coefsV : List Int := List.replicate maxCoefs 0
  let (coefsV, bits) ← readCoefsLoop numV 0 coefsV bits
  let shiftBits := bits
  let bits :=
    if bytesShifted ≠ 0 then bits.advance (u32 (bytesShifted * 8 * 2 * numSamples)) else bits
  let predBound := cfg.pb
  let agP := setAGParams cfg.mb (predBound * pbFactorU / 4) cfg.kb numSamples numSamples cfg.maxRun
  let predictor : List Int := List.replicate frameLen 0
  let (predictor, bits) ← dynDecomp agP bits predictor numSamples chanBits
  let (predictor, _) ←
    if modeU ≠ 0 then unpcBlock predictor predictor numSamples [] numActiveDelta chanBits 0
    else .ok (predictor, ([] : List Int))
  let (mixBufferU, _) ←
    unpcBlock predictor mixBufferU numSamples (coefsU.take numU) (numU : Int) chanBits denShiftU
  let agP := setAGParams cfg.mb (predBound * pbFactorV / 4) cfg.kb numSamples numSamples cfg.maxRun
  let predictor : List Int := List.replicate frameLen 0
  let (predictor, bits) ← dynDecomp agP bits predictor numSamples chanBits
  let (predictor, _) ←
    if modeV ≠ 0 then unpcBlock predictor predictor numSamples [] numActiveDelta chanBits 0
    else .ok (predictor, ([] : List Int))
  let (mixBufferV, _) ←
    unpcBlock predictor mixBufferV numSamples (coefsV.take numV) (numV : Int) chanBits denShiftV
  let (shiftBuffer, _) ←
    if bytesShifted ≠ 0 then readShiftCPE (bytesShifted * 8) numSamples 0 shiftBuffer shiftBits
    else .ok (shiftBuffer, shiftBits)
  .ok (mixBits, mixRes, mixBufferU, mixBufferV, shiftBuffer, bits)

/-- decodeCPE decodes a Channel Pair Element (stereo). -/
def decodeCPE (cfg : Config) (bits : bitBuffer) (output : List Nat)
    (chanIdx numChan numSamples : Nat) : Except Err (Nat × bitBuffer × List Nat) := do
  let (_, bits) ← bits.readSmall 4
  let (unusedHeader, bits) ← bits.read unusedHeaderBits
  if unusedHeader ≠ 0 then .error .invalidHeader
  else do
    let (headerByte, bits) ← bits.read 4
    let partialFrame := headerByte >>> 3
    let bytesShifted := (headerByte >>> 1) &&& 0x3
    if bytesShifted = 3 then .error .invalidShift
    else do
      let escapeFlag := headerByte &&& 0x1
      let chanBits := u32 (sub32 cfg.bitDepth (bytesShifted * 8) + 1)
      let (numSamples, bits) ←
        if partialFrame ≠ 0 then do
          let (hi, bits) ← bits.read 16
          let (lo, bits) ← bits.read 16
          pure (shl32 hi 16 ||| lo, bits)
        else pure (numSamples, bits)
      let (mixBits, mixRes, mixBufferU, mixBufferV, shiftBuffer, bytesShifted, bits) ←
        if escapeFlag = 0 then do
          let (mixBits, mixRes, mixU, mixV, sb, bits) ←
            decodeCPECompressed cfg bits chanBits bytesShifted numSamples
          pure (mixBits, mixRes, mixU, mixV, sb, bytesShifted, bits)
        else do
          let chanBits := cfg.bitDepth
          let mixU : List Int := List.replicate cfg.frameLength 0
          let mixV : List Int := List.replicate cfg.frameLength 0
          let (mixU, mixV, bits) ← decodeCPEEscape bits mixU mixV chanBits numSamples
          pure ((0 : Int), (0 : Int), mixU, mixV, List.replicate (cfg.frameLength * 2) 0, 0, bits)
      let sampleCount := numSamples
      let output ←
        if cfg.bitDepth = 16 then
          writeStereo16 output mixBufferU mixBufferV chanIdx numChan sampleCount mixBits mixRes
        else if cfg.bitDepth = 20 then
          writeStereo20 output mixBufferU mixBufferV chanIdx numChan sampleCount mixBits mixRes
        else if cfg.bitDepth = 24 then
          writeStereo24 output mixBufferU mixBufferV chanIdx numChan sampleCount mixBits mixRes
            shiftBuffer bytesShifted
        else if cfg.bitDepth = 32 then
          writeStereo32 output mixBufferU mixBufferV chanIdx numChan sampleCount mixBits mixRes
            shiftBuffer bytesShifted
        else .error .panicOOB
      .ok (numSamples, bits, output)

/-- skipFIL skips a Fill Element. -/
def skipFIL (bits : bitBuffer) : Except Err bitBuffer := do
  let (c, bits) ← bits.readSmall 4
  let (count, bits) ←
    if c = 15 then do
      let (c2, bits) ← bits.readSmall 8
      pure (c + c2 - 1, bits)
    else pure (c, bits)
  let bits := bits.advance (u32 (count * 8))
  if bits.pastEnd then .error .bitstreamOverrun else .ok bits

/-- skipDSE skips a Data Stream Element. -/
def skipDSE (bits : bitBuffer) : Except Err bitBuffer := do
  let (_, bits) ← bits.readSmall 4
  let (dataByteAlignFlag, bits) ← bits.readOne
  let (c, bits) ← bits.readSmall 8
  let (count, bits) ←
    if c = 255 then do
      let (c2, bits) ← bits.readSmall 8
      pure (c + c2, bits)
    else pure (c, bits)
  let bits := if dataByteAlignFlag ≠ 0 then bits.byteAlign else bits
  let bits := bits.advance (u32 (count * 8))
  if bits.pastEnd then .error .bitstreamOverrun else .ok bits

/-- The per-packet element loop of DecodePacket; returns the final sample count
and the (worst-case-sized) output buffer.  Fuel bounds the iteration count,
which in Go is bounded because every iteration consumes at least one bit while
the cursor is before the end of the packet. -/
def decodeLoop (cfg : Config) (numChan : Nat) :
    Nat → bitBuffer → List Nat → Nat → Nat → Except Err (Nat × List Nat)
  | 0, _, _, _, _ => .error .outOfFuel
  | fuel + 1, bits, output, chanIdx, numSamples =>
    if bits.pastEnd then .error .bitstreamOverrun
    else do
      let (tag, bits) ← bits.readSmall 3
      if tag = elemSCE ∨ tag = elemLFE then do
        let (ns, bits, output) ← decodeSCE cfg bits output chanIdx numChan numSamples
        let numSamples := ns
        let chanIdx := chanIdx + 1
        if numChan ≤ chanIdx then .ok (numSamples, output)
        else decodeLoop cfg numChan fuel bits output chanIdx numSamples
      else if tag = elemCPE then
        if numChan < chanIdx + 2 then .ok (numSamples, output)
        else do
          let (ns, bits, output) ← decodeCPE cfg bits output chanIdx numChan numSamples
          let numSamples := ns
          let chanIdx := chanIdx + 2
          if numChan ≤ chanIdx then .ok (numSamples, output)
          else decodeLoop cfg numChan fuel bits output chanIdx numSamples
      else if tag = elemCCE ∨ tag = elemPCE then .error .unsupportedElement
      else if tag = elemDSE then do
        let bits ← skipDSE bits
        if numChan ≤ chanIdx then .ok (numSamples, output)
        else decodeLoop cfg numChan fuel bits output chanIdx numSamples
      else if tag = elemFIL then do
        let bits ← skipFIL bits
        if numChan ≤ chanIdx then .ok (numSamples, output)
        else decodeLoop cfg numChan fuel bits output chanIdx numSamples
      else if tag = elemEND then
        let bits := bits.byteAlign
        let _ := bits
        .ok (numSamples, output)
      else
        if numChan ≤ chanIdx then .ok (numSamples, output)
        else decodeLoop cfg numChan fuel bits output chanIdx numSamples

/-- DecodePacket decodes a single ALAC packet into interleaved LE signed PCM
bytes, trimming the worst-case output allocation to the actual sample count. -/
def DecodePacket (d : Decoder) (packet : List Nat) : Except Err (List Nat) := do
  let bits := newBitBuffer packet
  let numSamples := d.config.frameLength
  let numChan := d.config.numChannels
  let bps ←
    match BytesPerSample d.format.bitDepth with
    | some n => Except.ok n
    | none => Except.error Err.panicOOB
  let output : List Nat := List.replicate (numSamples * numChan * bps) 0
  let (numSamples, output) ←
    decodeLoop d.config numChan (8 * packet.length + 16) bits output 0 numSamples
  let actualSize := numSamples * numChan * bps
  if actualSize ≤ output.length then .ok (output.take actualSize)
  else .error .panicOOB

/-! ### Shared lemmas -/

instance {ε α : Type} [DecidableEq ε] [DecidableEq α] : DecidableEq (Except ε α)
  | .error a, .error b =>
    if h : a = b then isTrue (by rw [h]) else isFalse (fun hc => by cases hc; exact h rfl)
  | .error _, .ok _ => isFalse (fun hc => by cases hc)
  | .ok _, .error _ => isFalse (fun hc => by cases hc)
  | .ok a, .ok b =>
    if h : a = b then isTrue (by rw [h]) else isFalse (fun hc => by cases hc; exact h rfl)

@[simp] theorem exbind_ok {α β : Type} (a : α) (f : α → Except Err β) :
    (Except.ok a >>= f) = f a := rfl

@[simp] theorem expure_ok {α : Type} (a : α) : (pure a : Except Err α) = Except.ok a := rfl

@[simp] theorem exbind_err {α β : Type} (e : Err) (f : α → Except Err β) :
    ((Except.error e : Except Err α) >>= f) = Except.error e := rfl

theorem bind_ok {α β : Type} {x : Except Err α} {f : α → Except Err β} {b : β}
    (h : (x >>= f) = .ok b) : ∃ a, x = .ok a ∧ f a = .ok b := by
  cases x with
  | ok a => exact ⟨a, rfl, h⟩
  | error e => exact absurd h (by simp)

theorem byteAt_ok {l : List Nat} {i v : Nat} (h : byteAt l i = .ok v) :
    i < l.length ∧ v = l.getD i 0 := by
  unfold byteAt at h
  split at h
  · cases h; exact ⟨by assumption, rfl⟩
  · cases h

theorem setByte_ok {l : List Nat} {i v : Nat} {l' : List Nat}
    (h : setByte l i v = .ok l') : i < l.length ∧ l' = l.set i v := by
  unfold setByte at h
  split at h
  · cases h; exact ⟨by assumption, rfl⟩
  · cases h

theorem setI_ok {l : List Int} {i : Nat} {v : Int} {l' : List Int}
    (h : setI l i v = .ok l') : i < l.length ∧ l' = l.set i v := by
  unfold setI at h
  split at h
  · cases h; exact ⟨by assumption, rfl⟩
  · cases h

theorem getI_ok {l : List Int} {i : Nat} {v : Int} (h : getI l i = .ok v) :
    i < l.length ∧ v = l.getD i 0 := by
  unfold getI at h
  split at h
  · cases h; exact ⟨by assumption, rfl⟩
  · cases h

theorem and7_le (x : Nat) : x &&& 7 ≤ 7 := by
  have h : (7 : Nat) = 2 ^ 3 - 1 := rfl
  rw [h, Nat.and_pow_two_sub_one_eq_mod]
  omega

theorem shiftRight3_and7 (x : Nat) : (x >>> 3) * 8 + (x &&& 7) = x := by
  have h7 : x &&& 7 = x % 8 := by
    have h : (7 : Nat) = 2 ^ 3 - 1 := rfl
    rw [h, Nat.and_pow_two_sub_one_eq_mod]
  rw [Nat.shiftRight_eq_div_pow, h7]
  omega

theorem u32_small {x : Nat} (h : x < 4294967296) : u32 x = x := Nat.mod_eq_of_lt h

theorem read_structure {b : bitBuffer} {n v : Nat} {b' : bitBuffer}
    (h : b.read n = .ok (v, b')) :
    b'.pos = b.pos + (u32 (b.bitIdx + n) >>> 3) ∧ b'.bitIdx = u32 (b.bitIdx + n) &&& 7 := by
  unfold bitBuffer.read at h
  obtain ⟨b0, h0, h⟩ := bind_ok h
  obtain ⟨b1, h1, h⟩ := bind_ok h
  obtain ⟨b2, h2, h⟩ := bind_ok h
  cases h
  exact ⟨rfl, rfl⟩

theorem readSmall_structure {b : bitBuffer} {n v : Nat} {b' : bitBuffer}
    (h : b.readSmall n = .ok (v, b')) :
    b'.pos = b.pos + (u32 (b.bitIdx + n) >>> 3) ∧ b'.bitIdx = u32 (b.bitIdx + n) &&& 7 := by
  unfold bitBuffer.readSmall at h
  obtain ⟨b0, h0, h⟩ := bind_ok h
  obtain ⟨b1, h1, h⟩ := bind_ok h
  cases h
  exact ⟨rfl, rfl⟩

theorem readOne_structure {b : bitBuffer} {v : Nat} {b' : bitBuffer}
    (h : b.readOne = .ok (v, b')) :
    b'.pos = b.pos + (u32 (b.bitIdx + 1) >>> 3) ∧ b'.bitIdx = u32 (b.bitIdx + 1) &&& 7 := by
  unfold bitBuffer.readOne at h
  obtain ⟨b0, h0, h⟩ := bind_ok h
  cases h
  exact ⟨rfl, rfl⟩

theorem cursor_step (p bi n : Nat) (h : bi + n < 4294967296) :
    (u32 (bi + n) &&& 7 ≤ 7) ∧
      (p + (u32 (bi + n) >>> 3)) * 8 + (u32 (bi + n) &&& 7) = p * 8 + bi + n := by
  rw [u32_small h]
  refine ⟨and7_le _, ?_⟩
  have := shiftRight3_and7 (bi + n)
  omega

theorem advance_props (b : bitBuffer) (n : Nat) (h : b.bitIdx + n < 4294967296) :
    (b.advance n).bitIdx ≤ 7 ∧
      (b.advance n).pos * 8 + (b.advance n).bitIdx = b.pos * 8 + b.bitIdx + n := by
  obtain ⟨h1, h2⟩ := cursor_step b.pos b.bitIdx n h
  exact ⟨h1, h2⟩

/-! ### Claim theorems -/

/-- C1: the claim says NewDecoder must fail with the UnsupportedBitDepth kind for
every bit depth outside {16,20,24,32}; the code instead delegates to ToBitDepth,
which also accepts 4, 8 and 12, so NewDecoder succeeds on bit depth 8 (decodeSCE
would later hit its unsupported-bit-depth panic).  This theorem evaluates the
code at the failing input and at the four supported depths. -/
theorem newDecoder_depth8_succeeds :
    (NewDecoder ⟨4096, 8, 2, 40, 10, 14, 255, 0, 0, 44100⟩).isOk = true ∧
    (NewDecoder ⟨4096, 4, 2, 40, 10, 14, 255, 0, 0, 44100⟩).isOk = true ∧
    (NewDecoder ⟨4096, 12, 2, 40, 10, 14, 255, 0, 0, 44100⟩).isOk = true ∧
    (NewDecoder ⟨4096, 16, 2, 40, 10, 14, 255, 0, 0, 44100⟩).isOk = true ∧
    (NewDecoder ⟨4096, 20, 2, 40, 10, 14, 255, 0, 0, 44100⟩).isOk = true ∧
    (NewDecoder ⟨4096, 24, 2, 40, 10, 14, 255, 0, 0, 44100⟩).isOk = true ∧
    (NewDecoder ⟨4096, 32, 2, 40, 10, 14, 255, 0, 0, 44100⟩).isOk = true ∧
    NewDecoder ⟨4096, 9, 2, 40, 10, 14, 255, 0, 0, 44100⟩ = .error .bitDepth := by
  decide

theorem lenAux_zero (fuel : Nat) : lenAux fuel 0 = 0 := by
  cases fuel <;> rfl

theorem lenAux_eq_log2 : ∀ (fuel n : Nat), 0 < n → n < 2 ^ fuel →
    lenAux fuel n = Nat.log2 n + 1 := by
  intro fuel
  induction fuel with
  | zero =>
    intro n h1 h2
    norm_num at h2
    omega
  | succ f ih =>
    intro n h1 h2
    unfold lenAux
    rw [if_neg (by omega)]
    by_cases hn2 : n < 2
    · have hn1 : n = 1 := by omega
      subst hn1
      rw [Nat.div_eq_of_lt (by norm_num), lenAux_zero]
      rw [Nat.log2_eq_log_two, Nat.log_one_right]
    · have hd : 0 < n / 2 := by omega
      have h2f : 2 ^ (f + 1) = 2 ^ f * 2 := by rw [Nat.pow_succ]
      have hd2 : n / 2 < 2 ^ f := by omega
      rw [ih (n / 2) hd hd2]
      rw [Nat.log2_eq_log_two, Nat.log2_eq_log_two, Nat.log_div_base]
      have hpos : 0 < Nat.log 2 n := Nat.log_pos (by norm_num) (by omega)
      omega

/-- C3: in every per-sample iteration of dynDecomp (whose loop head computes
`dynKM s.mb params.kb`), the Rice parameter is
`k = min(floor(log2((mb>>9)+3)), kBase)` and the divisor is `m = 2^k - 1`;
the leading-zero-count helper returns 32 for input zero. -/
theorem dynKM_rice_parameter (mbv kb : Nat) (h : mbv < 4294967296) :
    dynKM mbv kb =
      (min (Nat.log2 (mbv >>> 9 + 3)) kb, 2 ^ min (Nat.log2 (mbv >>> 9 + 3)) kb - 1) ∧
    lead 0 = 32 := by
  have hm : mbv >>> 9 < 8388608 := by
    rw [Nat.shiftRight_eq_div_pow]; omega
  have hne : mbv >>> 9 + 3 ≠ 0 := by omega
  have hlog : Nat.log2 (mbv >>> 9 + 3) < 32 :=
    (Nat.log2_lt hne).mpr (by omega)
  have h32 : mbv >>> 9 + 3 < 4294967296 := by omega
  have hlen : len32 (mbv >>> 9 + 3) = Nat.log2 (mbv >>> 9 + 3) + 1 :=
    lenAux_eq_log2 32 _ (by omega) (by have hp : (2 : Nat) ^ 32 = 4294967296 := by norm_num
                                       omega)
  have hlg : lg3a (mbv >>> 9) = Nat.log2 (mbv >>> 9 + 3) := by
    unfold lg3a lead u32
    rw [Nat.mod_eq_of_lt h32, if_neg hne, hlen]
    omega
  have hk : min (Nat.log2 (mbv >>> 9 + 3)) kb ≤ 31 := by omega
  have hpow : 2 ^ min (Nat.log2 (mbv >>> 9 + 3)) kb ≤ 2147483648 :=
    le_trans (Nat.pow_le_pow_right (by norm_num) hk) (by norm_num)
  have hp1 : 1 ≤ 2 ^ min (Nat.log2 (mbv >>> 9 + 3)) kb := Nat.one_le_two_pow
  constructor
  · have hkm : dynKM mbv kb =
        (min (lg3a (mbv >>> 9)) kb, sub32 (shl32 1 (min (lg3a (mbv >>> 9)) kb)) 1) := rfl
    rw [hkm, hlg]
    have hsh : shl32 1 (min (Nat.log2 (mbv >>> 9 + 3)) kb) =
        2 ^ min (Nat.log2 (mbv >>> 9 + 3)) kb := by
      unfold shl32
      have hmin : min (min (Nat.log2 (mbv >>> 9 + 3)) kb) 32 =
          min (Nat.log2 (mbv >>> 9 + 3)) kb := by omega
      rw [hmin]
      omega
    rw [hsh]
    have hsub : sub32 (2 ^ min (Nat.log2 (mbv >>> 9 + 3)) kb) 1 =
        2 ^ min (Nat.log2 (mbv >>> 9 + 3)) kb - 1 := by
      unfold sub32
      omega
    rw [hsub]
  · rfl

/-- C3 witness: the theorem applied at the concrete mean 1024 with kBase 14. -/
theorem dynKM_rice_parameter_witness :
    dynKM 1024 14 =
      (min (Nat.log2 (1024 >>> 9 + 3)) 14, 2 ^ min (Nat.log2 (1024 >>> 9 + 3)) 14 - 1) ∧
    lead 0 = 32 :=
  dynKM_rice_parameter 1024 14 (by norm_num)

/-- C8: ParseConfig rejects every cookie whose record, after stripping the
optional frma/alac wrapper atoms, is shorter than 24 bytes (errInvalidCookie)
or has a non-zero compatible-version byte at offset 4 (errUnsupportedVersion) —
the two errors of the spec's InvalidConfig kind — and succeeds otherwise. -/
theorem parseConfig_validation (cookie : List Nat) :
    ((stripAtoms cookie).length < 24 → ParseConfig cookie = .error .invalidCookie) ∧
    (24 ≤ (stripAtoms cookie).length → (stripAtoms cookie).getD 4 0 ≠ 0 →
      ParseConfig cookie = .error .unsupportedVersion) ∧
    (24 ≤ (stripAtoms cookie).length → (stripAtoms cookie).getD 4 0 = 0 →
      ∃ cfg, ParseConfig cookie = .ok cfg) := by
  refine ⟨fun h1 => ?_, fun h1 h2 => ?_, fun h1 h2 => ?_⟩
  · simp only [ParseConfig, configSize]
    rw [if_pos h1]
  · have hlt : ¬(stripAtoms cookie).length < 24 := by omega
    have hpos : 0 < (stripAtoms cookie).getD 4 0 := Nat.pos_of_ne_zero h2
    simp only [ParseConfig, configSize]
    rw [if_neg hlt, if_pos hpos]
  · have hlt : ¬(stripAtoms cookie).length < 24 := by omega
    have hpos : ¬0 < (stripAtoms cookie).getD 4 0 := by omega
    exact ⟨_, by simp only [ParseConfig, configSize]; rw [if_neg hlt, if_neg hpos]⟩

/-- C8 witness: a 23-byte record is rejected as too short, a 24-byte record with
non-zero version byte is rejected, and an all-zero 24-byte record parses. -/
theorem parseConfig_validation_witness :
    ParseConfig (List.replicate 23 0) = .error .invalidCookie ∧
    ParseConfig [0, 0, 16, 0, 1, 16, 40, 10, 14, 2, 0, 255, 0, 0, 0, 0, 0, 0, 0, 0, 0, 0, 172, 68] =
      .error .unsupportedVersion ∧
    ∃ cfg, ParseConfig (List.replicate 24 0) = .ok cfg := by
  refine ⟨(parseConfig_validation _).1 (by decide), ?_, (parseConfig_validation _).2.2 (by decide) (by decide)⟩
  exact (parseConfig_validation _).2.1 (by decide) (by decide)

/-- C9: every legal bitBuffer operation keeps the bit offset in [0,7] and moves
the absolute bit position `pos*8 + bitIdx` forward by exactly the number of bits
consumed (byteAlign moves to the next byte boundary, or not at all when already
aligned). -/
theorem bitBuffer_offset_invariant :
    (∀ (b : bitBuffer) (n v : Nat) (b' : bitBuffer), b.bitIdx ≤ 7 → n ≤ 16 →
      b.read n = .ok (v, b') →
      b'.bitIdx ≤ 7 ∧ b'.pos * 8 + b'.bitIdx = b.pos * 8 + b.bitIdx + n) ∧
    (∀ (b : bitBuffer) (n v : Nat) (b' : bitBuffer), b.bitIdx ≤ 7 → n ≤ 8 →
      b.readSmall n = .ok (v, b') →
      b'.bitIdx ≤ 7 ∧ b'.pos * 8 + b'.bitIdx = b.pos * 8 + b.bitIdx + n) ∧
    (∀ (b : bitBuffer) (v : Nat) (b' : bitBuffer), b.bitIdx ≤ 7 →
      b.readOne = .ok (v, b') →
      b'.bitIdx ≤ 7 ∧ b'.pos * 8 + b'.bitIdx = b.pos * 8 + b.bitIdx + 1) ∧
    (∀ (b : bitBuffer) (n : Nat), b.bitIdx ≤ 7 → n ≤ 4294967288 →
      (b.advance n).bitIdx ≤ 7 ∧
        (b.advance n).pos * 8 + (b.advance n).bitIdx = b.pos * 8 + b.bitIdx + n) ∧
    (∀ b : bitBuffer, b.bitIdx ≤ 7 →
      b.byteAlign.bitIdx ≤ 7 ∧
      (b.bitIdx = 0 → b.byteAlign = b) ∧
      (b.bitIdx ≠ 0 → b.byteAlign.pos * 8 + b.byteAlign.bitIdx = (b.pos + 1) * 8)) := by
  refine ⟨?_, ?_, ?_, ?_, ?_⟩
  · intro b n v b' hb hn h
    obtain ⟨hp, hi⟩ := read_structure h
    obtain ⟨h1, h2⟩ := cursor_step b.pos b.bitIdx n (by omega)
    rw [hp, hi]
    exact ⟨h1, h2⟩
  · intro b n v b' hb hn h
    obtain ⟨hp, hi⟩ := readSmall_structure h
    obtain ⟨h1, h2⟩ := cursor_step b.pos b.bitIdx n (by omega)
    rw [hp, hi]
    exact ⟨h1, h2⟩
  · intro b v b' hb h
    obtain ⟨hp, hi⟩ := readOne_structure h
    obtain ⟨h1, h2⟩ := cursor_step b.pos b.bitIdx 1 (by omega)
    rw [hp, hi]
    exact ⟨h1, h2⟩
  · intro b n hb hn
    exact advance_props b n (by omega)
  · intro b hb
    by_cases h0 : b.bitIdx = 0
    · have heq : b.byteAlign = b := by simp [bitBuffer.byteAlign, h0]
      rw [heq]
      exact ⟨hb, fun _ => rfl, fun hc => absurd h0 hc⟩
    · have hsub : sub32 8 b.bitIdx = 8 - b.bitIdx := by
        unfold sub32
        omega
      have heq : b.byteAlign = b.advance (8 - b.bitIdx) := by
        simp [bitBuffer.byteAlign, h0, hsub]
      obtain ⟨h1, h2⟩ := advance_props b (8 - b.bitIdx) (by omega)
      rw [heq]
      exact ⟨h1, fun hc => absurd hc h0, fun _ => by omega⟩

/-- C9 witness: the invariant applied to a concrete buffer and concrete reads. -/
theorem bitBuffer_offset_invariant_witness :
    ((newBitBuffer [170, 85, 204]).read 11 = .ok (1362, ⟨[170, 85, 204, 0, 0, 0, 0], 1, 3, 3⟩)) ∧
    (⟨[170, 85, 204, 0, 0, 0, 0], 1, 3, 3⟩ : bitBuffer).bitIdx ≤ 7 ∧
    (⟨[170, 85, 204, 0, 0, 0, 0], 1, 3, 3⟩ : bitBuffer).pos * 8 +
      (⟨[170, 85, 204, 0, 0, 0, 0], 1, 3, 3⟩ : bitBuffer).bitIdx =
      (newBitBuffer [170, 85, 204]).pos * 8 + (newBitBuffer [170, 85, 204]).bitIdx + 11 := by
  have h : (newBitBuffer [170, 85, 204]).read 11 = .ok (1362, ⟨[170, 85, 204, 0, 0, 0, 0], 1, 3, 3⟩) := by
    decide
  obtain ⟨h1, h2⟩ := bitBuffer_offset_invariant.1 (newBitBuffer [170, 85, 204]) 11 1362
    ⟨[170, 85, 204, 0, 0, 0, 0], 1, 3, 3⟩ (by decide) (by decide) h
  exact ⟨h, h1, h2⟩

/-- C10: for any decoder built by NewDecoder, DecodePacket on a zero-length
packet fails with the bitstream-overrun error (the pastEnd check at the top of
the element loop fires immediately) and returns no PCM. -/
theorem decodePacket_empty_overrun (cfg : Config) (d : Decoder)
    (h : NewDecoder cfg = .ok d) : DecodePacket d [] = .error .bitstreamOverrun := by
  have hbps : ∃ n, BytesPerSample d.format.bitDepth = some n := by
    unfold NewDecoder at h
    cases htb : ToBitDepth cfg.bitDepth with
    | error e => rw [htb] at h; cases h
    | ok bd =>
      rw [htb] at h
      cases h
      unfold ToBitDepth at htb
      split at htb <;> first
        | (cases htb; exact ⟨_, rfl⟩)
        | cases htb
  obtain ⟨n, hn⟩ := hbps
  unfold DecodePacket
  rw [hn]
  have hfuel : 8 * ([] : List Nat).length + 16 = 15 + 1 := by simp
  rw [hfuel]
  have hpe : (newBitBuffer []).pastEnd = true := by decide
  simp [decodeLoop, hpe]

theorem getD_set_self {α : Type} {l : List α} {i : Nat} {v d : α} (h : i < l.length) :
    (l.set i v).getD i d = v := by
  simp [List.getD, List.getElem?_set_self, h]

theorem getD_set_ne {α : Type} {l : List α} {i j : Nat} {v d : α} (h : i ≠ j) :
    (l.set i v).getD j d = l.getD j d := by
  simp [List.getD, List.getElem?_set_ne, h]

theorem writeZeros_count : ∀ (n count : Nat) (pc : List Int) (c' : Nat) (pc' : List Int),
    writeZeros n count pc = .ok (c', pc') → c' = count + n := by
  intro n
  induction n with
  | zero =>
    intro count pc c' pc' h
    cases h
    rfl
  | succ m ih =>
    intro count pc c' pc' h
    unfold writeZeros at h
    obtain ⟨pc1, h1, h2⟩ := bind_ok h
    have := ih (count + 1) pc1 c' pc' h2
    omega

set_option maxRecDepth 4000 in
/-- C2 counterexample: with Config.MaxRun = 255 carried into the parameters via
setAGParams, a decoded zero run of length 255 (at or above the configured
maximum, below the fixed maxZeroRun constant) leaves the carry flag SET for the
next sample: dynDecompStep ends with zmode = 1, count jumped from 0 to 256
(one literal sample plus the 255-zero run whose length dynGet returns here). -/
theorem dynDecompStep_run_at_maxrun_keeps_flag :
    (setAGParams 0 0 14 257 257 255).maxrun = 255 ∧
    dynGet [127, 192, 63, 192] 1 255 8 = .ok (255, 26) ∧
    dynDecompStep (setAGParams 0 0 14 257 257 255) [127, 192, 63, 192] 32 257 16
      ⟨0, 0, 0, 0, List.replicate 257 0⟩ =
      .ok ⟨26, 0, 1, 256, List.replicate 257 0⟩ := by
  decide

/-- C2 amended: after the zero-run sub-step of dynDecomp decodes and emits a run
of n zeros, the carry flag stays set for the next sample iff n is below the
fixed maxZeroRun constant 65535 (the configured maxrun is never consulted:
dynZeroRun does not take it), and the running mean is reset to zero in both
cases; n is recoverable as the count delta. -/
theorem dynZeroRun_flag_and_mean (wb numSamples bitPos mbv count : Nat)
    (input : List Nat) (pc : List Int) (s' : DynState)
    (h : dynZeroRun wb input numSamples bitPos mbv count pc = .ok s') :
    s'.mb = 0 ∧ count ≤ s'.count ∧
      s'.zmode = (if maxZeroRun ≤ s'.count - count then 0 else 1) := by
  unfold dynZeroRun at h
  obtain ⟨⟨residual, bitPos'⟩, hg, h⟩ := bind_ok h
  dsimp only at h
  by_cases hcond : numSamples < count + residual
  · rw [if_pos hcond] at h
    cases h
  · rw [if_neg hcond] at h
    obtain ⟨⟨count2, pc2⟩, hw, h⟩ := bind_ok h
    dsimp only at h
    have hc := writeZeros_count residual count pc count2 pc2 hw
    cases h
    refine ⟨rfl, ?_, ?_⟩
    · show count ≤ count2
      omega
    · show (if maxZeroRun ≤ residual then 0 else 1) = if maxZeroRun ≤ count2 - count then 0 else 1
      have hcc : count2 - count = residual := by omega
      rw [hcc]

set_option maxRecDepth 4000 in
/-- C2 amended witness: the amended statement at the concrete run of length 255. -/
theorem dynZeroRun_flag_and_mean_witness :
    dynZeroRun 16383 [127, 192, 63, 192] 257 1 0 1 (List.replicate 257 0) =
      .ok ⟨26, 0, 1, 256, List.replicate 257 0⟩ ∧
    (⟨26, 0, 1, 256, List.replicate 257 0⟩ : DynState).mb = 0 ∧
    1 ≤ (⟨26, 0, 1, 256, List.replicate 257 0⟩ : DynState).count ∧
    (⟨26, 0, 1, 256, List.replicate 257 0⟩ : DynState).zmode =
      (if maxZeroRun ≤ (⟨26, 0, 1, 256, List.replicate 257 0⟩ : DynState).count - 1
        then 0 else 1) := by
  have h : dynZeroRun 16383 [127, 192, 63, 192] 257 1 0 1 (List.replicate 257 0) =
      .ok ⟨26, 0, 1, 256, List.replicate 257 0⟩ := by decide
  exact ⟨h, dynZeroRun_flag_and_mean 16383 257 1 0 1 [127, 192, 63, 192]
    (List.replicate 257 0) _ h⟩

/-- Pointwise characterisation of the numActive == 31 delta-decode loop. -/
theorem deltaDecode_spec : ∀ (r j : Nat) (prev : Int) (out out' pc1 : List Int) (cs : Nat),
    deltaDecode pc1 cs r j prev out = .ok out' →
    1 ≤ j → out.getD (j - 1) 0 = prev →
    (∀ p, p < j → out'.getD p 0 = out.getD p 0) ∧
    (∀ m, j ≤ m → m < j + r →
      out'.getD m 0 = sarI32 (shlI32 (toInt32 (pc1.getD m 0 + out'.getD (m - 1) 0)) cs) cs) := by
  intro r
  induction r with
  | zero =>
    intro j prev out out' pc1 cs h hj hprev
    cases h
    exact ⟨fun p _ => rfl, fun m hm1 hm2 => absurd hm2 (by omega)⟩
  | succ rr ih =>
    intro j prev out out' pc1 cs h hj hprev
    unfold deltaDecode at h
    obtain ⟨p, hp, h⟩ := bind_ok h
    obtain ⟨out1, hset, h⟩ := bind_ok h
    obtain ⟨hjlen, hout1⟩ := setI_ok hset
    obtain ⟨hpl, hpv⟩ := getI_ok hp
    have hprev2 : out1.getD (j + 1 - 1) 0 = sarI32 (shlI32 (toInt32 (p + prev)) cs) cs := by
      rw [hout1]
      simpa using getD_set_self hjlen
    obtain ⟨hlow, hrec⟩ := ih (j + 1) _ out1 out' pc1 cs h (by omega) hprev2
    constructor
    · intro q hq
      rw [hlow q (by omega), hout1, getD_set_ne (by omega)]
    · intro m hm1 hm2
      by_cases hmj : m = j
      · subst hmj
        rw [hlow m (by omega), hout1, getD_set_self hjlen]
        have hm1' : out'.getD (m - 1) 0 = out1.getD (m - 1) 0 := hlow (m - 1) (by omega)
        rw [hm1', hout1, getD_set_ne (by omega), hprev, hpv]
      · exact hrec m (by omega) (by omega)

/-- C5: with the reserved numActive == 31 sentinel, unpcBlock performs a
first-order delta decode: out[0] = pc1[0] and each further out[j] is the sum of
residual pc1[j] and out[j-1], truncated to the channel bit width by the
shift-left/shift-right pair; residuals [100, -20, 5] at chanBits = 16 decode to
[100, 80, 85]. -/
theorem unpcBlock_delta31 :
    (∀ (pc1 out : List Int) (num : Nat) (coefs : List Int) (chanBits denShift : Nat)
      (res cf : List Int),
      unpcBlock pc1 out num coefs 31 chanBits denShift = .ok (res, cf) →
      res.getD 0 0 = pc1.getD 0 0 ∧
      ∀ j, 1 ≤ j → j < num →
        res.getD j 0 =
          sarI32 (shlI32 (toInt32 (pc1.getD j 0 + res.getD (j - 1) 0)) (sub32 32 chanBits))
            (sub32 32 chanBits)) ∧
    unpcBlock [100, -20, 5] (List.replicate 3 0) 3 [] 31 16 0 = .ok ([100, 80, 85], []) := by
  constructor
  · intro pc1 out num coefs chanBits denShift res cf h
    unfold unpcBlock at h
    obtain ⟨p0, hp0, h⟩ := bind_ok h
    obtain ⟨out0, hset, h⟩ := bind_ok h
    obtain ⟨h0len, hout0⟩ := setI_ok hset
    obtain ⟨hp0l, hp0v⟩ := getI_ok hp0
    dsimp only at h
    rw [if_neg (by norm_num : ¬((31 : Int) = 0)), if_pos rfl] at h
    obtain ⟨outd, hdelta, h⟩ := bind_ok h
    simp only [Except.ok.injEq, Prod.mk.injEq] at h
    obtain ⟨hres, hcf⟩ := h
    subst hres
    subst hcf
    have hstart : out0.getD (1 - 1) 0 = p0 := by
      rw [hout0]
      simpa using getD_set_self h0len
    obtain ⟨hlow, hrec⟩ :=
      deltaDecode_spec (num - 1) 1 p0 out0 outd pc1 (sub32 32 chanBits) hdelta
        (by omega) hstart
    constructor
    · rw [hlow 0 (by omega), hout0, getD_set_self h0len, hp0v]
    · intro j hj1 hj2
      exact hrec j hj1 (by omega)
  · decide

/-- Little-endian 16-bit value stored at byte position p of an output buffer
(observation function used to state packing claims). -/
def leVal16 (out : List Nat) (p : Nat) : Nat := out.getD p 0 + 256 * out.getD (p + 1) 0

theorem pat16_lt (x : Int) : pat16 x < 65536 := by
  unfold pat16
  have h1 : 0 ≤ x % 65536 := Int.emod_nonneg x (by norm_num)
  have h2 : x % 65536 < 65536 := Int.emod_lt_of_pos x (by norm_num)
  omega

theorem putUint16LE_ok {out : List Nat} {pos v : Nat} {out' : List Nat}
    (h : putUint16LE out pos v = .ok out') :
    pos + 1 < out.length ∧
      out' = (out.set pos (lowByte v)).set (pos + 1) (lowByte (v >>> 8)) ∧
      out'.length = out.length := by
  unfold putUint16LE at h
  obtain ⟨o1, h1, h2⟩ := bind_ok h
  obtain ⟨hl1, he1⟩ := setByte_ok h1
  obtain ⟨hl2, he2⟩ := setByte_ok h2
  subst he1
  subst he2
  refine ⟨by simpa using hl2, rfl, by simp⟩

theorem leVal16_after_put (out : List Nat) (pos v : Nat) (hlen : pos + 1 < out.length)
    (hv : v < 65536) :
    leVal16 ((out.set pos (lowByte v)).set (pos + 1) (lowByte (v >>> 8))) pos = v := by
  unfold leVal16 lowByte
  rw [getD_set_ne (by omega), getD_set_self (by omega), getD_set_self (by simpa using hlen)]
  rw [Nat.shiftRight_eq_div_pow]
  omega

theorem getD_after_put_lt (out : List Nat) (pos v p : Nat) (hp : p < pos) :
    ((out.set pos (lowByte v)).set (pos + 1) (lowByte (v >>> 8))).getD p 0 = out.getD p 0 := by
  rw [getD_set_ne (by omega), getD_set_ne (by omega)]

/-- Per-sample characterisation of the decorrelated writeStereo16 loop. -/
theorem ws16LoopA_spec : ∀ (r i : Nat) (u v : List Int) (offset stride : Nat)
    (mixBits mixRes : Int) (out out' : List Nat),
    ws16LoopA u v offset stride mixBits mixRes r i out = .ok out' →
    4 ≤ stride →
    out'.length = out.length ∧
    (∀ p, p < offset + i * stride → out'.getD p 0 = out.getD p 0) ∧
    (∀ m, i ≤ m → m < i + r →
      leVal16 out' (offset + m * stride) =
        pat16 (toInt32 (u.getD m 0 + v.getD m 0 -
          sarI32 (toInt32 (mixRes * v.getD m 0)) mixBits.toNat)) ∧
      leVal16 out' (offset + m * stride + 2) =
        pat16 (toInt32 (toInt32 (u.getD m 0 + v.getD m 0 -
          sarI32 (toInt32 (mixRes * v.getD m 0)) mixBits.toNat) - v.getD m 0))) := by
  intro r
  induction r with
  | zero =>
    intro i u v offset stride mixBits mixRes out out' h hs
    cases h
    exact ⟨rfl, fun p _ => rfl, fun m hm1 hm2 => absurd hm2 (by omega)⟩
  | succ rr ih =>
    intro i u v offset stride mixBits mixRes out out' h hs
    unfold ws16LoopA at h
    obtain ⟨ui, hui, h⟩ := bind_ok h
    obtain ⟨vi, hvi, h⟩ := bind_ok h
    obtain ⟨huil, huiv⟩ := getI_ok hui
    obtain ⟨hvil, hviv⟩ := getI_ok hvi
    subst huiv
    subst hviv
    dsimp only at h
    obtain ⟨out1, hput1, h⟩ := bind_ok h
    obtain ⟨out2, hput2, h⟩ := bind_ok h
    obtain ⟨hlen1, he1, hlenp1⟩ := putUint16LE_ok hput1
    obtain ⟨hlen2, he2, hlenp2⟩ := putUint16LE_ok hput2
    obtain ⟨ihlen, ihpres, ihval⟩ := ih (i + 1) u v offset stride mixBits mixRes out2 out' h hs
    have hstep : offset + (i + 1) * stride = offset + i * stride + stride := by ring
    have hlen : out'.length = out.length := by rw [ihlen, hlenp2, hlenp1]
    refine ⟨hlen, ?_, ?_⟩
    · intro p hp
      rw [ihpres p (by omega), he2, getD_after_put_lt _ _ _ _ (by omega), he1,
        getD_after_put_lt _ _ _ _ (by omega)]
    · intro m hm1 hm2
      by_cases hmi : m = i
      · subst hmi
        have hq0 : out'.getD (offset + m * stride) 0 = out2.getD (offset + m * stride) 0 :=
          ihpres _ (by omega)
        have hq1 : out'.getD (offset + m * stride + 1) 0 = out2.getD (offset + m * stride + 1) 0 :=
          ihpres _ (by omega)
        have hq2 : out'.getD (offset + m * stride + 2) 0 = out2.getD (offset + m * stride + 2) 0 :=
          ihpres _ (by omega)
        have hq3 : out'.getD (offset + m * stride + 3) 0 = out2.getD (offset + m * stride + 3) 0 :=
          ihpres _ (by omega)
        have hkeep : leVal16 out2 (offset + m * stride) = leVal16 out1 (offset + m * stride) := by
          rw [he2]
          unfold leVal16
          rw [getD_set_ne (by omega), getD_set_ne (by omega), getD_set_ne (by omega),
            getD_set_ne (by omega)]
        constructor
        · have hv1 : leVal16 out' (offset + m * stride) = leVal16 out2 (offset + m * stride) := by
            unfold leVal16
            rw [hq0, hq1]
          rw [hv1, hkeep, he1, leVal16_after_put _ _ _ hlen1 (pat16_lt _)]
        · have hv2 : leVal16 out' (offset + m * stride + 2) =
              leVal16 out2 (offset + m * stride + 2) := by
            unfold leVal16
            rw [show offset + m * stride + 2 + 1 = offset + m * stride + 3 from by omega]
            rw [hq2, hq3]
          rw [hv2, he2, leVal16_after_put _ _ _ hlen2 (pat16_lt _)]
      · exact ihval m (by omega) (by omega)

/-- Per-sample characterisation of the pass-through writeStereo16 loop. -/
theorem ws16LoopB_spec : ∀ (r i : Nat) (u v : List Int) (offset stride : Nat)
    (out out' : List Nat),
    ws16LoopB u v offset stride r i out = .ok out' →
    4 ≤ stride →
    out'.length = out.length ∧
    (∀ p, p < offset + i * stride → out'.getD p 0 = out.getD p 0) ∧
    (∀ m, i ≤ m → m < i + r →
      leVal16 out' (offset + m * stride) = pat16 (u.getD m 0) ∧
      leVal16 out' (offset + m * stride + 2) = pat16 (v.getD m 0)) := by
  intro r
  induction r with
  | zero =>
    intro i u v offset stride out out' h hs
    cases h
    exact ⟨rfl, fun p _ => rfl, fun m hm1 hm2 => absurd hm2 (by omega)⟩
  | succ rr ih =>
    intro i u v offset stride out out' h hs
    unfold ws16LoopB at h
    obtain ⟨ui, hui, h⟩ := bind_ok h
    obtain ⟨vi, hvi, h⟩ := bind_ok h
    obtain ⟨huil, huiv⟩ := getI_ok hui
    obtain ⟨hvil, hviv⟩ := getI_ok hvi
    subst huiv
    subst hviv
    dsimp only at h
    obtain ⟨out1, hput1, h⟩ := bind_ok h
    obtain ⟨out2, hput2, h⟩ := bind_ok h
    obtain ⟨hlen1, he1, hlenp1⟩ := putUint16LE_ok hput1
    obtain ⟨hlen2, he2, hlenp2⟩ := putUint16LE_ok hput2
    obtain ⟨ihlen, ihpres, ihval⟩ := ih (i + 1) u v offset stride out2 out' h hs
    have hstep : offset + (i + 1) * stride = offset + i * stride + stride := by ring
    have hlen : out'.length = out.length := by rw [ihlen, hlenp2, hlenp1]
    refine ⟨hlen, ?_, ?_⟩
    · intro p hp
      rw [ihpres p (by omega), he2, getD_after_put_lt _ _ _ _ (by omega), he1,
        getD_after_put_lt _ _ _ _ (by omega)]
    · intro m hm1 hm2
      by_cases hmi : m = i
      · subst hmi
        have hq0 : out'.getD (offset + m * stride) 0 = out2.getD (offset + m * stride) 0 :=
          ihpres _ (by omega)
        have hq1 : out'.getD (offset + m * stride + 1) 0 = out2.getD (offset + m * stride + 1) 0 :=
          ihpres _ (by omega)
        have hq2 : out'.getD (offset + m * stride + 2) 0 = out2.getD (offset + m * stride + 2) 0 :=
          ihpres _ (by omega)
        have hq3 : out'.getD (offset + m * stride + 3) 0 = out2.getD (offset + m * stride + 3) 0 :=
          ihpres _ (by omega)
        have hkeep : leVal16 out2 (offset + m * stride) = leVal16 out1 (offset + m * stride) := by
          rw [he2]
          unfold leVal16
          rw [getD_set_ne (by omega), getD_set_ne (by omega), getD_set_ne (by omega),
            getD_set_ne (by omega)]
        constructor
        · have hv1 : leVal16 out' (offset + m * stride) = leVal16 out2 (offset + m * stride) := by
            unfold leVal16
            rw [hq0, hq1]
          rw [hv1, hkeep, he1, leVal16_after_put _ _ _ hlen1 (pat16_lt _)]
        · have hv2 : leVal16 out' (offset + m * stride + 2) =
              leVal16 out2 (offset + m * stride + 2) := by
            unfold leVal16
            rw [show offset + m * stride + 2 + 1 = offset + m * stride + 3 from by omega]
            rw [hq2, hq3]
          rw [hv2, he2, leVal16_after_put _ _ _ hlen2 (pat16_lt _)]
      · exact ihval m (by omega) (by omega)

/-- C4: for every sample index of a stereo unmix through writeStereo16, the
16-bit little-endian fields written at the left and right positions encode
left = U[i] + V[i] - ((mixRes * V[i]) >> mixBits) and right = left - V[i] when
mixRes != 0, and U[i] / V[i] unchanged when mixRes == 0 (all arithmetic in
wrapping int32, fields truncated to 16 bits); the spec scenario U=[10,20],
V=[2,4], mixBits=1, mixRes=2 yields left=[10,20], right=[8,16]. -/
theorem writeStereo16_unmix :
    (∀ (out : List Nat) (u v : List Int) (chanIdx numChan numSamples : Nat)
      (mixBits mixRes : Int) (out' : List Nat) (i : Nat),
      writeStereo16 out u v chanIdx numChan numSamples mixBits mixRes = .ok out' →
      2 ≤ numChan → i < numSamples →
      (mixRes ≠ 0 →
        leVal16 out' (chanIdx * 2 + i * (numChan * 2)) =
          pat16 (toInt32 (u.getD i 0 + v.getD i 0 -
            sarI32 (toInt32 (mixRes * v.getD i 0)) mixBits.toNat)) ∧
        leVal16 out' (chanIdx * 2 + i * (numChan * 2) + 2) =
          pat16 (toInt32 (toInt32 (u.getD i 0 + v.getD i 0 -
            sarI32 (toInt32 (mixRes * v.getD i 0)) mixBits.toNat) - v.getD i 0))) ∧
      (mixRes = 0 →
        leVal16 out' (chanIdx * 2 + i * (numChan * 2)) = pat16 (u.getD i 0) ∧
        leVal16 out' (chanIdx * 2 + i * (numChan * 2) + 2) = pat16 (v.getD i 0))) ∧
    writeStereo16 (List.replicate 8 0) [10, 20] [2, 4] 0 2 2 1 2 =
      .ok [10, 0, 8, 0, 20, 0, 16, 0] := by
  constructor
  · intro out u v chanIdx numChan numSamples mixBits mixRes out' i h hchan hi
    unfold writeStereo16 at h
    have hstride : 4 ≤ numChan * 2 := by omega
    constructor
    · intro hmr
      rw [if_pos hmr] at h
      obtain ⟨_, _, hval⟩ :=
        ws16LoopA_spec numSamples 0 u v (chanIdx * 2) (numChan * 2) mixBits mixRes out out' h
          hstride
      exact hval i (by omega) (by omega)
    · intro hmr
      rw [if_neg (by simp [hmr])] at h
      obtain ⟨_, _, hval⟩ :=
        ws16LoopB_spec numSamples 0 u v (chanIdx * 2) (numChan * 2) out out' h hstride
      exact hval i (by omega) (by omega)
  · decide

/-- C4 witness: the pointwise theorem applied to the spec scenario at index 1. -/
theorem writeStereo16_unmix_witness :
    writeStereo16 (List.replicate 8 0) [10, 20] [2, 4] 0 2 2 1 2 =
      .ok [10, 0, 8, 0, 20, 0, 16, 0] ∧
    leVal16 [10, 0, 8, 0, 20, 0, 16, 0] (0 * 2 + 1 * (2 * 2)) =
      pat16 (toInt32 (([10, 20] : List Int).getD 1 0 + ([2, 4] : List Int).getD 1 0 -
        sarI32 (toInt32 (2 * ([2, 4] : List Int).getD 1 0)) (1 : Int).toNat)) ∧
    leVal16 [10, 0, 8, 0, 20, 0, 16, 0] (0 * 2 + 1 * (2 * 2) + 2) =
      pat16 (toInt32 (toInt32 (([10, 20] : List Int).getD 1 0 + ([2, 4] : List Int).getD 1 0 -
        sarI32 (toInt32 (2 * ([2, 4] : List Int).getD 1 0)) (1 : Int).toNat) -
        ([2, 4] : List Int).getD 1 0)) := by
  have h : writeStereo16 (List.replicate 8 0) [10, 20] [2, 4] 0 2 2 1 2 =
      .ok [10, 0, 8, 0, 20, 0, 16, 0] := by decide
  obtain ⟨ha, hb⟩ :=
    (writeStereo16_unmix.1 (List.replicate 8 0) [10, 20] [2, 4] 0 2 2 1 2
      [10, 0, 8, 0, 20, 0, 16, 0] 1 h (by omega) (by omega)).1 (by norm_num)
  exact ⟨h, ha, hb⟩

/-- C10 witness: the theorem applied to a concrete 16-bit mono configuration. -/
theorem decodePacket_empty_overrun_witness :
    NewDecoder ⟨4, 16, 1, 40, 10, 14, 255, 0, 0, 44100⟩ =
      .ok ⟨⟨4, 16, 1, 40, 10, 14, 255, 0, 0, 44100⟩, ⟨44100, 16, 1⟩⟩ ∧
    DecodePacket ⟨⟨4, 16, 1, 40, 10, 14, 255, 0, 0, 44100⟩, ⟨44100, 16, 1⟩⟩ [] =
      .error .bitstreamOverrun := by
  have h : NewDecoder ⟨4, 16, 1, 40, 10, 14, 255, 0, 0, 44100⟩ =
      .ok ⟨⟨4, 16, 1, 40, 10, 14, 255, 0, 0, 44100⟩, ⟨44100, 16, 1⟩⟩ := by decide
  exact ⟨h, decodePacket_empty_overrun _ _ h⟩

theorem newDecoder_bps {cfg : Config} {d : Decoder} (h : NewDecoder cfg = .ok d) :
    ∃ n, BytesPerSample d.format.bitDepth = some n := by
  unfold NewDecoder at h
  cases htb : ToBitDepth cfg.bitDepth with
  | error e => rw [htb] at h; cases h
  | ok bd =>
    rw [htb] at h
    cases h
    unfold ToBitDepth at htb
    split at htb <;> first
      | (cases htb; exact ⟨_, rfl⟩)
      | cases htb

/-- C6: decoding an SCE or CPE element fails with the invalid-header kind when
the 12-bit reserved field is non-zero and with the invalid-shift kind when the
bytes-shifted field equals 3; DecodePacket fails with the unsupported-element
kind on a CCE or PCE tag; each failure is an error (so no PCM is returned for
the packet) and the three kinds are pairwise distinct. -/
theorem decode_error_kinds :
    (∀ (cfg : Config) (bits : bitBuffer) (out : List Nat) (chanIdx numChan numSamples : Nat)
      (t v : Nat) (s1 s2 : bitBuffer),
      bits.readSmall 4 = .ok (t, s1) → s1.read 12 = .ok (v, s2) → v ≠ 0 →
      decodeSCE cfg bits out chanIdx numChan numSamples = .error .invalidHeader) ∧
    (∀ (cfg : Config) (bits : bitBuffer) (out : List Nat) (chanIdx numChan numSamples : Nat)
      (t hb : Nat) (s1 s2 s3 : bitBuffer),
      bits.readSmall 4 = .ok (t, s1) → s1.read 12 = .ok (0, s2) → s2.read 4 = .ok (hb, s3) →
      (hb >>> 1) &&& 3 = 3 →
      decodeSCE cfg bits out chanIdx numChan numSamples = .error .invalidShift) ∧
    (∀ (cfg : Config) (bits : bitBuffer) (out : List Nat) (chanIdx numChan numSamples : Nat)
      (t v : Nat) (s1 s2 : bitBuffer),
      bits.readSmall 4 = .ok (t, s1) → s1.read 12 = .ok (v, s2) → v ≠ 0 →
      decodeCPE cfg bits out chanIdx numChan numSamples = .error .invalidHeader) ∧
    (∀ (cfg : Config) (bits : bitBuffer) (out : List Nat) (chanIdx numChan numSamples : Nat)
      (t hb : Nat) (s1 s2 s3 : bitBuffer),
      bits.readSmall 4 = .ok (t, s1) → s1.read 12 = .ok (0, s2) → s2.read 4 = .ok (hb, s3) →
      (hb >>> 1) &&& 3 = 3 →
      decodeCPE cfg bits out chanIdx numChan numSamples = .error .invalidShift) ∧
    (∀ (cfg : Config) (d : Decoder) (packet : List Nat) (tag : Nat) (s1 : bitBuffer),
      NewDecoder cfg = .ok d → packet ≠ [] →
      (newBitBuffer packet).readSmall 3 = .ok (tag, s1) → tag = elemCCE ∨ tag = elemPCE →
      DecodePacket d packet = .error .unsupportedElement) ∧
    (Err.invalidHeader ≠ Err.invalidShift ∧ Err.invalidHeader ≠ Err.unsupportedElement ∧
      Err.invalidShift ≠ Err.unsupportedElement) := by
  refine ⟨?_, ?_, ?_, ?_, ?_, by decide, by decide, by decide⟩
  · intro cfg bits out chanIdx numChan numSamples t v s1 s2 h1 h2 hv
    simp [decodeSCE, unusedHeaderBits, h1, h2, hv]
  · intro cfg bits out chanIdx numChan numSamples t hb s1 s2 s3 h1 h2 h3 hbs
    simp [decodeSCE, unusedHeaderBits, h1, h2, h3, hbs]
  · intro cfg bits out chanIdx numChan numSamples t v s1 s2 h1 h2 hv
    simp [decodeCPE, unusedHeaderBits, h1, h2, hv]
  · intro cfg bits out chanIdx numChan numSamples t hb s1 s2 s3 h1 h2 h3 hbs
    simp [decodeCPE, unusedHeaderBits, h1, h2, h3, hbs]
  · intro cfg d packet tag s1 hnd hne htag htv
    obtain ⟨n, hn⟩ := newDecoder_bps hnd
    unfold DecodePacket
    rw [hn]
    have hfuel : 8 * packet.length + 16 = Nat.succ (8 * packet.length + 15) := by omega
    rw [hfuel]
    have hpe : (newBitBuffer packet).pastEnd = false := by
      unfold bitBuffer.pastEnd newBitBuffer
      simp only [decide_eq_false_iff_not]
      intro hc
      exact hne (List.length_eq_zero.mp (by omega))
    dsimp only
    simp only [exbind_ok]
    rw [decodeLoop.eq_def]
    dsimp only
    rw [hpe]
    simp only [Bool.false_eq_true, if_false, htag, exbind_ok]
    rcases htv with rfl | rfl <;>
      simp only [elemSCE, elemLFE, elemCPE, elemCCE, elemPCE, elemDSE, elemFIL, elemEND] <;>
      norm_num

/-- C6 witness: concrete elements with non-zero reserved bits, a bytes-shifted
field of 3, and a packet whose first element tag is CCE. -/
theorem decode_error_kinds_witness :
    decodeSCE ⟨4, 16, 1, 40, 10, 14, 255, 0, 0, 44100⟩ (newBitBuffer [255, 255, 255])
      (List.replicate 8 0) 0 1 4 = .error .invalidHeader ∧
    decodeSCE ⟨4, 16, 1, 40, 10, 14, 255, 0, 0, 44100⟩ (newBitBuffer [0, 0, 96])
      (List.replicate 8 0) 0 1 4 = .error .invalidShift ∧
    decodeCPE ⟨4, 16, 2, 40, 10, 14, 255, 0, 0, 44100⟩ (newBitBuffer [255, 255, 255])
      (List.replicate 16 0) 0 2 4 = .error .invalidHeader ∧
    decodeCPE ⟨4, 16, 2, 40, 10, 14, 255, 0, 0, 44100⟩ (newBitBuffer [0, 0, 96])
      (List.replicate 16 0) 0 2 4 = .error .invalidShift ∧
    DecodePacket ⟨⟨4, 16, 1, 40, 10, 14, 255, 0, 0, 44100⟩, ⟨44100, 16, 1⟩⟩ [64] =
      .error .unsupportedElement := by
  refine ⟨?_, ?_, ?_, ?_, ?_⟩
  · exact decode_error_kinds.1 _ _ _ _ _ _ 15 4095 ⟨[255, 255, 255, 0, 0, 0, 0], 0, 4, 3⟩
      ⟨[255, 255, 255, 0, 0, 0, 0], 2, 0, 3⟩ (by decide) (by decide) (by decide)
  · exact decode_error_kinds.2.1 _ _ _ _ _ _ 0 6 ⟨[0, 0, 96, 0, 0, 0, 0], 0, 4, 3⟩
      ⟨[0, 0, 96, 0, 0, 0, 0], 2, 0, 3⟩ ⟨[0, 0, 96, 0, 0, 0, 0], 2, 4, 3⟩
      (by decide) (by decide) (by decide) (by decide)
  · exact decode_error_kinds.2.2.1 _ _ _ _ _ _ 15 4095 ⟨[255, 255, 255, 0, 0, 0, 0], 0, 4, 3⟩
      ⟨[255, 255, 255, 0, 0, 0, 0], 2, 0, 3⟩ (by decide) (by decide) (by decide)
  · exact decode_error_kinds.2.2.2.1 _ _ _ _ _ _ 0 6 ⟨[0, 0, 96, 0, 0, 0, 0], 0, 4, 3⟩
      ⟨[0, 0, 96, 0, 0, 0, 0], 2, 0, 3⟩ ⟨[0, 0, 96, 0, 0, 0, 0], 2, 4, 3⟩
      (by decide) (by decide) (by decide) (by decide)
  · exact decode_error_kinds.2.2.2.2.1 ⟨4, 16, 1, 40, 10, 14, 255, 0, 0, 44100⟩ _ _ 2
      ⟨[64, 0, 0, 0, 0], 0, 3, 1⟩ (by decide) (by decide) (by decide) (Or.inl rfl)

/-- C7: every successful DecodePacket call returns exactly ns * channels *
bytesPerSample bytes, where ns is the element loop's final sample count (the
output is the worst-case buffer trimmed to that size); and for each SCE or CPE
element the returned sample count is the caller's count unless the partial-frame
header bit is set, in which case it is the 32-bit override read from the
bitstream as two 16-bit fields. -/
theorem decodePacket_output_length :
    (∀ (d : Decoder) (packet : List Nat) (out : List Nat) (bps : Nat),
      BytesPerSample d.format.bitDepth = some bps →
      DecodePacket d packet = .ok out →
      ∃ ns buf,
        decodeLoop d.config d.config.numChannels (8 * packet.length + 16) (newBitBuffer packet)
          (List.replicate (d.config.frameLength * d.config.numChannels * bps) 0) 0
          d.config.frameLength = .ok (ns, buf) ∧
        out.length = ns * d.config.numChannels * bps) ∧
    (∀ (cfg : Config) (bits : bitBuffer) (output : List Nat)
      (chanIdx numChan numSamples ns' : Nat) (bits' : bitBuffer) (out' : List Nat)
      (t hb : Nat) (s1 s2 s3 : bitBuffer),
      decodeSCE cfg bits output chanIdx numChan numSamples = .ok (ns', bits', out') →
      bits.readSmall 4 = .ok (t, s1) → s1.read 12 = .ok (0, s2) → s2.read 4 = .ok (hb, s3) →
      (hb >>> 3 = 0 → ns' = numSamples) ∧
      (hb >>> 3 ≠ 0 → ∃ hi lo : Nat, ∃ s4 s5 : bitBuffer,
        s3.read 16 = .ok (hi, s4) ∧ s4.read 16 = .ok (lo, s5) ∧
        ns' = shl32 hi 16 ||| lo)) ∧
    (∀ (cfg : Config) (bits : bitBuffer) (output : List Nat)
      (chanIdx numChan numSamples ns' : Nat) (bits' : bitBuffer) (out' : List Nat)
      (t hb : Nat) (s1 s2 s3 : bitBuffer),
      decodeCPE cfg bits output chanIdx numChan numSamples = .ok (ns', bits', out') →
      bits.readSmall 4 = .ok (t, s1) → s1.read 12 = .ok (0, s2) → s2.read 4 = .ok (hb, s3) →
      (hb >>> 3 = 0 → ns' = numSamples) ∧
      (hb >>> 3 ≠ 0 → ∃ hi lo : Nat, ∃ s4 s5 : bitBuffer,
        s3.read 16 = .ok (hi, s4) ∧ s4.read 16 = .ok (lo, s5) ∧
        ns' = shl32 hi 16 ||| lo)) := by
  refine ⟨?_, ?_, ?_⟩
  · intro d packet out bps hbps h
    unfold DecodePacket at h
    rw [hbps] at h
    simp only [exbind_ok] at h
    obtain ⟨⟨ns, buf⟩, hloop, h⟩ := bind_ok h
    by_cases hle : ns * d.config.numChannels * bps ≤ buf.length
    · rw [if_pos hle] at h
      cases h
      refine ⟨ns, buf, hloop, ?_⟩
      simp only [List.length_take]
      omega
    · rw [if_neg hle] at h
      cases h
  · intro cfg bits output chanIdx numChan numSamples ns' bits' out' t hb s1 s2 s3 h h1 h2 h3
    unfold decodeSCE at h
    rw [h1] at h
    simp only [exbind_ok, unusedHeaderBits] at h
    rw [h2] at h
    simp only [exbind_ok] at h
    rw [if_neg (by norm_num : ¬((0 : Nat) ≠ 0))] at h
    rw [h3] at h
    simp only [exbind_ok] at h
    by_cases hbs : (hb >>> 1) &&& 3 = 3
    · rw [if_pos hbs] at h
      cases h
    · rw [if_neg hbs] at h
      by_cases hpf : hb >>> 3 ≠ 0
      · rw [if_pos hpf] at h
        obtain ⟨⟨hi, s4⟩, hr1, h⟩ := bind_ok h
        dsimp only at h
        obtain ⟨⟨lo, s5⟩, hr2, h⟩ := bind_ok h
        dsimp only at h
        simp only [expure_ok, exbind_ok] at h
        have hns : ns' = shl32 hi 16 ||| lo := by
          by_cases hesc : hb &&& 1 = 0
          · rw [if_pos hesc] at h
            obtain ⟨mid, hmid, h⟩ := bind_ok h
            repeat' first
              | (obtain ⟨w, hw, h⟩ := bind_ok h; cases h; rfl)
              | (simp at h)
              | split at h
          · rw [if_neg hesc] at h
            obtain ⟨mid, hmid, h⟩ := bind_ok h
            repeat' first
              | (obtain ⟨w, hw, h⟩ := bind_ok h; cases h; rfl)
              | (simp at h)
              | split at h
        exact ⟨fun hc => absurd hc hpf, fun _ => ⟨hi, lo, s4, s5, hr1, hr2, hns⟩⟩
      · rw [if_neg hpf] at h
        simp only [expure_ok, exbind_ok] at h
        have hns : ns' = numSamples := by
          by_cases hesc : hb &&& 1 = 0
          · rw [if_pos hesc] at h
            obtain ⟨mid, hmid, h⟩ := bind_ok h
            repeat' first
              | (obtain ⟨w, hw, h⟩ := bind_ok h; cases h; rfl)
              | (simp at h)
              | split at h
          · rw [if_neg hesc] at h
            obtain ⟨mid, hmid, h⟩ := bind_ok h
            repeat' first
              | (obtain ⟨w, hw, h⟩ := bind_ok h; cases h; rfl)
              | (simp at h)
              | split at h
        exact ⟨fun _ => hns, fun hc => absurd (by omega) hc⟩
  · intro cfg bits output chanIdx numChan numSamples ns' bits' out' t hb s1 s2 s3 h h1 h2 h3
    unfold decodeCPE at h
    rw [h1] at h
    simp only [exbind_ok, unusedHeaderBits] at h
    rw [h2] at h
    simp only [exbind_ok] at h
    rw [if_neg (by norm_num : ¬((0 : Nat) ≠ 0))] at h
    rw [h3] at h
    simp only [exbind_ok] at h
    by_cases hbs : (hb >>> 1) &&& 3 = 3
    · rw [if_pos hbs] at h
      cases h
    · rw [if_neg hbs] at h
      by_cases hpf : hb >>> 3 ≠ 0
      · rw [if_pos hpf] at h
        obtain ⟨⟨hi, s4⟩, hr1, h⟩ := bind_ok h
        dsimp only at h
        obtain ⟨⟨lo, s5⟩, hr2, h⟩ := bind_ok h
        dsimp only at h
        simp only [expure_ok, exbind_ok] at h
        have hns : ns' = shl32 hi 16 ||| lo := by
          by_cases hesc : hb &&& 1 = 0
          · rw [if_pos hesc] at h
            obtain ⟨mid, hmid, h⟩ := bind_ok h
            repeat' first
              | (obtain ⟨w, hw, h⟩ := bind_ok h; cases h; rfl)
              | (simp at h)
              | split at h
          · rw [if_neg hesc] at h
            obtain ⟨mid, hmid, h⟩ := bind_ok h
            repeat' first
              | (obtain ⟨w, hw, h⟩ := bind_ok h; cases h; rfl)
              | (simp at h)
              | split at h
        exact ⟨fun hc => absurd hc hpf, fun _ => ⟨hi, lo, s4, s5, hr1, hr2, hns⟩⟩
      · rw [if_neg hpf] at h
        simp only [expure_ok, exbind_ok] at h
        have hns : ns' = numSamples := by
          by_cases hesc : hb &&& 1 = 0
          · rw [if_pos hesc] at h
            obtain ⟨mid, hmid, h⟩ := bind_ok h
            repeat' first
              | (obtain ⟨w, hw, h⟩ := bind_ok h; cases h; rfl)
              | (simp at h)
              | split at h
          · rw [if_neg hesc] at h
            obtain ⟨mid, hmid, h⟩ := bind_ok h
            repeat' first
              | (obtain ⟨w, hw, h⟩ := bind_ok h; cases h; rfl)
              | (simp at h)
              | split at h
        exact ⟨fun _ => hns, fun hc => absurd (by omega) hc⟩

/-- C7 witness: a partial-frame escape-mode mono packet against a frame length
of 4 samples decodes to exactly 1 sample (2 bytes), not the 8-byte worst case. -/
theorem decodePacket_output_length_witness :
    DecodePacket ⟨⟨4, 16, 1, 40, 10, 14, 255, 0, 0, 44100⟩, ⟨44100, 16, 1⟩⟩
      [0, 0, 18, 0, 0, 0, 2, 36, 104] = .ok [52, 18] ∧
    ∃ ns buf,
      decodeLoop ⟨4, 16, 1, 40, 10, 14, 255, 0, 0, 44100⟩ 1
        (8 * ([0, 0, 18, 0, 0, 0, 2, 36, 104] : List Nat).length + 16)
        (newBitBuffer [0, 0, 18, 0, 0, 0, 2, 36, 104]) (List.replicate (4 * 1 * 2) 0) 0 4 =
        .ok (ns, buf) ∧
      ([52, 18] : List Nat).length = ns * 1 * 2 := by
  have h : DecodePacket ⟨⟨4, 16, 1, 40, 10, 14, 255, 0, 0, 44100⟩, ⟨44100, 16, 1⟩⟩
      [0, 0, 18, 0, 0, 0, 2, 36, 104] = .ok [52, 18] := by decide
  exact ⟨h, decodePacket_output_length.1
    ⟨⟨4, 16, 1, 40, 10, 14, 255, 0, 0, 44100⟩, ⟨44100, 16, 1⟩⟩
    [0, 0, 18, 0, 0, 0, 2, 36, 104] [52, 18] 2 (by decide) h⟩

end Saprobe
